import Mathlib

/-!
Shallow embedding of `compare_gan/src/eval_gan_lib.py` and verification of
properties of its checkpoint-evaluation pipeline: the discriminator
accuracy/loss computation (`ComputeAccuracyLoss`), the per-checkpoint
evaluation (`RunCheckpointEval`) and the sweep over checkpoints with its
persisted CSV score table (`RunTaskEval`).

Modelling conventions:
* Python floats are modelled as `ℚ`; where NaN matters (the generated fake
  images, `np.mean` of an empty list) an explicit representation is used
  (`PyVal` with a `nan` constructor, `Option ℚ` with `none` for NaN).
* Fallible Python code (raised exceptions) is modelled with `Except String`.
* `sess.run` outputs of the TensorFlow graph (discriminator outputs, losses,
  generated image batches) are inputs of the model, supplied as oracles.
-/

namespace EvalGanLib

/-! ## String ordering (Python `sorted` on strings) -/

/-- Lexicographic comparison of character lists by code point, the order
Python's `sorted` uses on strings. -/
def lexLe : List Char → List Char → Bool
  | [], _ => true
  | _ :: _, [] => false
  | a :: as, b :: bs =>
    if a.toNat < b.toNat then true
    else if b.toNat < a.toNat then false
    else lexLe as bs

/-- String comparison by code points. -/
def strLe (a b : String) : Bool := lexLe a.toList b.toList

/-- Property form of `strLe`, used as the sorting relation. -/
def StrLe (a b : String) : Prop := strLe a b = true

instance : DecidableRel StrLe := fun a b => decEq (strLe a b) true

theorem lexLe_total : ∀ a b : List Char, lexLe a b = true ∨ lexLe b a = true := by
  intro a
  induction a with
  | nil => intro b; left; rfl
  | cons x xs ih =>
    intro b
    cases b with
    | nil => right; rfl
    | cons y ys =>
      rcases Nat.lt_trichotomy x.toNat y.toNat with h | h | h
      · left; simp [lexLe, h]
      · have hxy : ¬ x.toNat < y.toNat := by omega
        have hyx : ¬ y.toNat < x.toNat := by omega
        rcases ih ys with h2 | h2
        · left; simp [lexLe, hxy, hyx, h2]
        · right; simp [lexLe, hxy, hyx, h2]
      · right; simp [lexLe, h]

theorem lexLe_trans :
    ∀ a b c : List Char, lexLe a b = true → lexLe b c = true → lexLe a c = true := by
  intro a
  induction a with
  | nil => intro b c _ _; rfl
  | cons x xs ih =>
    intro b c hab hbc
    cases b with
    | nil => simp [lexLe] at hab
    | cons y ys =>
      cases c with
      | nil => simp [lexLe] at hbc
      | cons z zs =>
        simp only [lexLe] at hab hbc ⊢
        by_cases h1 : x.toNat < y.toNat
        · by_cases h2 : y.toNat < z.toNat
          · simp [show x.toNat < z.toNat by omega]
          · by_cases h3 : z.toNat < y.toNat
            · simp [h2, h3] at hbc
            · simp [show x.toNat < z.toNat by omega]
        · by_cases h4 : y.toNat < x.toNat
          · simp [h1, h4] at hab
          · by_cases h2 : y.toNat < z.toNat
            · simp [show x.toNat < z.toNat by omega]
            · by_cases h3 : z.toNat < y.toNat
              · simp [h2, h3] at hbc
              · have hxz : ¬ x.toNat < z.toNat := by omega
                have hzx : ¬ z.toNat < x.toNat := by omega
                simp only [hxz, if_false, hzx]
                simp only [h1, if_false, h4] at hab
                simp only [h2, if_false, h3] at hbc
                exact ih ys zs hab hbc

instance : IsTotal String StrLe := ⟨fun a b => lexLe_total a.toList b.toList⟩

instance : IsTrans String StrLe :=
  ⟨fun a b c => lexLe_trans a.toList b.toList c.toList⟩

/-- Model of Python `sorted` on a list of strings (stable, code-point order). -/
def sortStr (l : List String) : List String := List.insertionSort StrLe l

/-! ## Constants from the source -/

/-- Special value returned when a fake image generated by the GAN has NaNs
(`NAN_DETECTED = 31337.0`). -/
def NAN_DETECTED : ℚ := 31337

/-- Inception batch size (`INCEPTION_BATCH = 50`). -/
def INCEPTION_BATCH : ℕ := 50

/-- Python `str()` rendering of the `DEFAULT_VALUES` dict from the source:
the value used for a hyperparameter column when the trial's options do not
set that parameter. -/
def DEFAULT_VALUES : List (String × String) :=
  [("weight_clipping", "-1.0"), ("y_dim", "-1"), ("lambda", "-1.0"),
   ("disc_iters", "-1"), ("beta1", "-1.0"), ("beta2", "-1.0"),
   ("gamma", "-1.0"), ("penalty_type", "none"),
   ("discriminator_spectralnorm", "False"), ("architecture", "unknown")]

/-! ## Fixed-point formatting (`"%.3f" % value`) -/

/-- Left-pads a natural number below 1000 to three digits. -/
def pad3 (k : ℕ) : String :=
  if k < 10 then "00" ++ toString k
  else if k < 100 then "0" ++ toString k
  else toString k

/-- Model of Python `"%.3f" % q`: sign, integer part, and exactly three
decimal digits. Rounding of a tie is half-up on the magnitude; the source
formats IEEE doubles (round-half-even), but no value this development
evaluates is a tie, so the convention is unobservable here. -/
def format3 (q : ℚ) : String :=
  let a : ℕ := q.num.natAbs * 1000
  let r : ℕ := (2 * a + q.den) / (2 * q.den)
  (if q < 0 then "-" else "") ++ toString (r / 1000) ++ "." ++ pad3 (r % 1000)

/-! ## `GetRealImages` (count form) and `np.mean` -/

/-- Model of `np.mean` on a list of floats: NaN (`none`) on the empty list,
otherwise the arithmetic mean. -/
def npMean (l : List ℚ) : Option ℚ :=
  if l.isEmpty then none else some (l.sum / (l.length : ℚ))

/-- Mean of a list of rationals; used only where the list is known nonempty
(when it is empty the source has already raised `ZeroDivisionError` at the
accuracy computation, so `np.mean` is never reached with an empty list). -/
def meanQ (l : List ℚ) : ℚ := l.sum / (l.length : ℚ)

/-- Count form of `GetRealImages(dataset, split, num_examples,
failure_on_insufficient_examples)`: the dataset iterator yields images one
at a time and stops at the end of the dataset, so the number read is
`min datasetSize numExamples`; when fewer than `numExamples` were read the
function raises `ValueError` if `failureOnInsufficientExamples` is true and
otherwise logs and returns the short population. -/
def GetRealImagesCount (datasetSize numExamples : ℕ)
    (failureOnInsufficientExamples : Bool) : Except String ℕ :=
  let got := min datasetSize numExamples
  if got ≠ numExamples && failureOnInsufficientExamples then
    .error "ValueError: Not enough examples in the dataset"
  else .ok got

/-! ## `ComputeAccuracyLoss`

The TensorFlow session is abstracted by an oracle `out : ℕ → ℕ → BatchOut`
giving, for repeat `r` and batch `i`, the values the three `sess.run` calls
of the source return: the discriminator-output vectors on the test batch,
the train batch and the generated fake batch, and the two scalar
discriminator losses. -/

/-- Results of the `sess.run` calls for one batch of one repeat of
`ComputeAccuracyLoss`. -/
structure BatchOut where
  testPred : List ℚ
  testLoss : ℚ
  trainPred : List ℚ
  trainLoss : ℚ
  fakePred : List ℚ
deriving DecidableEq

/-- The dictionary `ComputeAccuracyLoss` returns. Fields are `Option ℚ`
because `np.mean` of an empty list is NaN (`none`). -/
structure AccResult where
  train_accuracy : Option ℚ
  test_accuracy : Option ℚ
  fake_accuracy : Option ℚ
  train_d_loss : Option ℚ
  test_d_loss : Option ℚ
deriving DecidableEq

/-- Python `v[0]`: the first element of a vector, raising `IndexError` when
the vector is empty. -/
def getIdx0 : List ℚ → Except String ℚ
  | [] => .error "IndexError: index 0 is out of bounds"
  | x :: _ => .ok x

/-- Python `sum(bools) / float(len(bools))`: raises `ZeroDivisionError` on an
empty list. -/
def pyratio (num den : ℕ) : Except String ℚ :=
  if den = 0 then .error "ZeroDivisionError: float division by zero"
  else .ok ((num : ℚ) / (den : ℚ))

/-- The constant `discriminator_threshold = 0.5` of the source. -/
def discriminator_threshold : ℚ := 1/2

/-- Values produced by one iteration of the `for repeat in range(num_repeat)`
loop: the three per-repeat accuracies and the final contents of the
`train_d_losses` / `test_d_losses` variables. The source re-initializes
those two lists inside the repeat loop, fills them with the per-batch
losses, computes their mean, and then appends that mean to the same lists. -/
structure RepeatOut where
  trainAcc : ℚ
  testAcc : ℚ
  fakeAcc : ℚ
  trainLossVar : List ℚ
  testLossVar : List ℚ
deriving DecidableEq

/-- One iteration of the repeat loop of `ComputeAccuracyLoss`. Per batch the
source records element `[0]` of each discriminator-output vector and the
scalar losses, thresholds at 0.5 (test/train counted correct when the output
is `≥ 0.5`, fake when `< 0.5`), and averages. -/
def repeatStep (out : ℕ → ℕ → BatchOut) (numBatches r : ℕ) :
    Except String RepeatOut := do
  let testPreds ← (List.range numBatches).mapM fun i => getIdx0 (out r i).testPred
  let testDLosses := (List.range numBatches).map fun i => (out r i).testLoss
  let trainPreds ← (List.range numBatches).mapM fun i => getIdx0 (out r i).trainPred
  let trainDLosses := (List.range numBatches).map fun i => (out r i).trainLoss
  let fakePreds ← (List.range numBatches).mapM fun i => getIdx0 (out r i).fakePred
  let trainBools := trainPreds.map fun x => decide (discriminator_threshold ≤ x)
  let testBools := testPreds.map fun x => decide (discriminator_threshold ≤ x)
  let fakeBools := fakePreds.map fun x => decide (x < discriminator_threshold)
  let trainAcc ← pyratio (trainBools.count true) trainBools.length
  let testAcc ← pyratio (testBools.count true) testBools.length
  let fakeAcc ← pyratio (fakeBools.count true) fakeBools.length
  let trainDLoss := meanQ trainDLosses
  let testDLoss := meanQ testDLosses
  pure ⟨trainAcc, testAcc, fakeAcc,
        trainDLosses ++ [trainDLoss], testDLosses ++ [testDLoss]⟩

/-- The `max_train_examples=50000` default of `ComputeAccuracyLoss`. -/
def max_train_examples : ℕ := 50000

/-- The body of the `for repeat in range(num_repeat)` loop as a fold step.
The first three components of the state are the accuracy accumulators,
which the source extends by one value per repeat; the last two are the
`train_d_losses` / `test_d_losses` variables, which the source re-initializes
inside the loop so the step overwrites them with the repeat's final lists. -/
def accStep (out : ℕ → ℕ → BatchOut) (numBatches : ℕ)
    (acc : List ℚ × List ℚ × List ℚ × List ℚ × List ℚ) (r : ℕ) :
    Except String (List ℚ × List ℚ × List ℚ × List ℚ × List ℚ) := do
  let ro ← repeatStep out numBatches r
  pure (acc.1 ++ [ro.trainAcc], acc.2.1 ++ [ro.testAcc],
        acc.2.2.1 ++ [ro.fakeAcc], ro.trainLossVar, ro.testLossVar)

/-- Model of `ComputeAccuracyLoss`. `trainDatasetSize` is the number of
images the train split of the dataset holds, `testCount` the number of test
images, `batchSize` the GAN batch size and `numRepeat` the repeat count.
The train images are loaded with `failure_on_insufficient_examples=False`
(a short train split is logged, not fatal), then `ValueError` is raised when
fewer train than test images exist. `num_batches` is
`floor(testCount / batchSize)` (a trailing partial batch is dropped). The
cross-repeat accumulators `train_d_losses` / `test_d_losses` of the source
are clobbered by the re-initialization inside the repeat loop, which the
fold reproduces: the loss components of the state are overwritten, not
extended, on every repeat. -/
def ComputeAccuracyLoss (trainDatasetSize testCount batchSize numRepeat : ℕ)
    (out : ℕ → ℕ → BatchOut) : Except String AccResult := do
  let trainCount ← GetRealImagesCount trainDatasetSize max_train_examples false
  if trainCount < testCount then
    throw "ValueError: num_train must be larger than num_test."
  if batchSize = 0 then
    throw "ZeroDivisionError: division by zero"
  let numBatches := testCount / batchSize
  let final ← (List.range numRepeat).foldlM (accStep out numBatches)
    ([], [], [], [], [])
  pure ⟨npMean final.1, npMean final.2.1, npMean final.2.2.1,
        npMean final.2.2.2.1, npMean final.2.2.2.2⟩

/-! ## Characterization of `ComputeAccuracyLoss` -/

/-- First elements (`[0]`) of the selected prediction vectors of the batches
of one repeat; this is the only part of each discriminator-output vector the
source records. -/
def headPreds (sel : BatchOut → List ℚ) (out : ℕ → ℕ → BatchOut)
    (numBatches r : ℕ) : List ℚ :=
  (List.range numBatches).map fun i => (sel (out r i)).headD 0

/-- Per-batch scalar discriminator losses of one repeat. -/
def batchLosses (sel : BatchOut → ℚ) (out : ℕ → ℕ → BatchOut)
    (numBatches r : ℕ) : List ℚ :=
  (List.range numBatches).map fun i => sel (out r i)

/-- Fraction of the entries of a list satisfying a predicate. -/
def accOf (p : ℚ → Bool) (preds : List ℚ) : ℚ :=
  ((preds.countP p : ℕ) : ℚ) / (preds.length : ℚ)

/-- Closed form of one repeat iteration: accuracies are fractions of
first-element predictions passing the 0.5 threshold, and the loss variables
end as the per-batch losses with their own mean appended. -/
def repeatOutSpec (out : ℕ → ℕ → BatchOut) (numBatches r : ℕ) : RepeatOut :=
  ⟨accOf (fun x => decide (discriminator_threshold ≤ x))
     (headPreds BatchOut.trainPred out numBatches r),
   accOf (fun x => decide (discriminator_threshold ≤ x))
     (headPreds BatchOut.testPred out numBatches r),
   accOf (fun x => decide (x < discriminator_threshold))
     (headPreds BatchOut.fakePred out numBatches r),
   batchLosses BatchOut.trainLoss out numBatches r
     ++ [meanQ (batchLosses BatchOut.trainLoss out numBatches r)],
   batchLosses BatchOut.testLoss out numBatches r
     ++ [meanQ (batchLosses BatchOut.testLoss out numBatches r)]⟩

theorem ok_bind {ε α β : Type} (a : α) (f : α → Except ε β) :
    (Except.ok a >>= f : Except ε β) = f a := rfl

theorem pure_eq_ok {ε α : Type} (a : α) : (pure a : Except ε α) = .ok a := rfl

theorem mapM_ok {α β : Type} (f : α → Except String β) (g : α → β) :
    ∀ l : List α, (∀ x ∈ l, f x = .ok (g x)) → l.mapM f = .ok (l.map g) := by
  intro l
  induction l with
  | nil => intro _; rfl
  | cons a as ih =>
    intro h
    rw [List.mapM_cons, h a (List.mem_cons_self a as),
      ih (fun x hx => h x (List.mem_cons_of_mem a hx))]
    rfl

theorem getIdx0_ok (l : List ℚ) (h : l ≠ []) : getIdx0 l = .ok (l.headD 0) := by
  cases l with
  | nil => exact absurd rfl h
  | cons x xs => rfl

theorem count_true_map {α : Type} (p : α → Bool) (l : List α) :
    (l.map p).count true = l.countP p := by
  induction l with
  | nil => rfl
  | cons a as ih => simp [List.count_cons, List.countP_cons, ih]

theorem repeatStep_ok (out : ℕ → ℕ → BatchOut) (numBatches r : ℕ)
    (hnb : numBatches ≠ 0)
    (hne : ∀ i, (out r i).testPred ≠ [] ∧ (out r i).trainPred ≠ [] ∧
      (out r i).fakePred ≠ []) :
    repeatStep out numBatches r = .ok (repeatOutSpec out numBatches r) := by
  have htest := mapM_ok (fun i => getIdx0 (out r i).testPred)
    (fun i => (out r i).testPred.headD 0) (List.range numBatches)
    (fun i _ => getIdx0_ok _ (hne i).1)
  have htrain := mapM_ok (fun i => getIdx0 (out r i).trainPred)
    (fun i => (out r i).trainPred.headD 0) (List.range numBatches)
    (fun i _ => getIdx0_ok _ (hne i).2.1)
  have hfake := mapM_ok (fun i => getIdx0 (out r i).fakePred)
    (fun i => (out r i).fakePred.headD 0) (List.range numBatches)
    (fun i _ => getIdx0_ok _ (hne i).2.2)
  simp only [repeatStep, htest, htrain, hfake, ok_bind]
  simp only [pyratio, List.length_map, List.length_range, hnb, if_false,
    count_true_map, ok_bind, pure_eq_ok]
  simp [repeatOutSpec, accOf, headPreds, batchLosses, count_true_map, meanQ]

theorem accFold_ok (out : ℕ → ℕ → BatchOut) (numBatches : ℕ) (hnb : numBatches ≠ 0)
    (hne : ∀ r i, (out r i).testPred ≠ [] ∧ (out r i).trainPred ≠ [] ∧
      (out r i).fakePred ≠ []) :
    ∀ n : ℕ, (List.range n).foldlM (accStep out numBatches) ([], [], [], [], [])
      = .ok ((List.range n).map fun r => (repeatOutSpec out numBatches r).trainAcc,
             (List.range n).map fun r => (repeatOutSpec out numBatches r).testAcc,
             (List.range n).map fun r => (repeatOutSpec out numBatches r).fakeAcc,
             if n = 0 then [] else (repeatOutSpec out numBatches (n - 1)).trainLossVar,
             if n = 0 then [] else (repeatOutSpec out numBatches (n - 1)).testLossVar) := by
  intro n
  induction n with
  | zero => rfl
  | succ m ih =>
    rw [List.range_succ, List.foldlM_append, ih, ok_bind]
    show (accStep out numBatches _ m >>= fun s' => List.foldlM _ s' []) = _
    simp only [accStep, repeatStep_ok out numBatches m hnb (hne m), ok_bind,
      List.foldlM_nil, pure_eq_ok]
    simp [List.range_succ]

/-- Value of `ComputeAccuracyLoss` on the success path. The loss fields come
from the last repeat only, because the source re-initializes the loss
accumulators inside the repeat loop. -/
def accResultSpec (out : ℕ → ℕ → BatchOut) (numBatches numRepeat : ℕ) : AccResult :=
  ⟨npMean ((List.range numRepeat).map fun r => (repeatOutSpec out numBatches r).trainAcc),
   npMean ((List.range numRepeat).map fun r => (repeatOutSpec out numBatches r).testAcc),
   npMean ((List.range numRepeat).map fun r => (repeatOutSpec out numBatches r).fakeAcc),
   npMean (if numRepeat = 0 then []
     else (repeatOutSpec out numBatches (numRepeat - 1)).trainLossVar),
   npMean (if numRepeat = 0 then []
     else (repeatOutSpec out numBatches (numRepeat - 1)).testLossVar)⟩

theorem ComputeAccuracyLoss_ok (trainDatasetSize testCount batchSize numRepeat : ℕ)
    (out : ℕ → ℕ → BatchOut)
    (htrain : testCount ≤ min trainDatasetSize max_train_examples)
    (hbs : batchSize ≠ 0) (hnb : testCount / batchSize ≠ 0)
    (hne : ∀ r i, (out r i).testPred ≠ [] ∧ (out r i).trainPred ≠ [] ∧
      (out r i).fakePred ≠ []) :
    ComputeAccuracyLoss trainDatasetSize testCount batchSize numRepeat out
      = .ok (accResultSpec out (testCount / batchSize) numRepeat) := by
  have hget : GetRealImagesCount trainDatasetSize max_train_examples false
      = .ok (min trainDatasetSize max_train_examples) := by
    simp [GetRealImagesCount]
  have hlt : ¬ (min trainDatasetSize max_train_examples < testCount) := by omega
  simp only [ComputeAccuracyLoss, hget, ok_bind, hlt, if_false, hbs,
    accFold_ok out (testCount / batchSize) hnb hne numRepeat, pure_eq_ok]
  simp [accResultSpec]

/-! ## Claims C7, C8, C9, C10 about `ComputeAccuracyLoss` -/

/-- Oracle of a perfect discriminator: output exactly 1 on every real (test
or train) example and exactly 0 on every fake example, batch size 1, zero
losses. -/
def outPerfect : ℕ → ℕ → BatchOut := fun _ _ => ⟨[1], 0, [1], 0, [0]⟩

theorem sum_all_eq (c : ℚ) : ∀ l : List ℚ, (∀ x ∈ l, x = c) →
    l.sum = (l.length : ℚ) * c := by
  intro l
  induction l with
  | nil => intro _; simp
  | cons a as ih =>
    intro h
    have ha : a = c := h a (List.mem_cons_self a as)
    have has := ih fun x hx => h x (List.mem_cons_of_mem a hx)
    simp [ha, has]
    ring

theorem npMean_all_eq (c : ℚ) (l : List ℚ) (hl : l ≠ []) (h : ∀ x ∈ l, x = c) :
    npMean l = some c := by
  have hlen : (l.length : ℚ) ≠ 0 :=
    Nat.cast_ne_zero.mpr (List.length_pos.mpr hl).ne'
  simp only [npMean, List.isEmpty_iff, hl, if_false, sum_all_eq c l h]
  rw [mul_comm, mul_div_assoc, div_self hlen, mul_one]

theorem headD_all_eq (l : List ℚ) (c : ℚ) (hl : l ≠ []) (h : ∀ x ∈ l, x = c) :
    l.headD 0 = c := by
  cases l with
  | nil => exact absurd rfl hl
  | cons a as => exact h a (List.mem_cons_self a as)

theorem accOf_all_true (p : ℚ → Bool) (l : List ℚ) (hl : l ≠ [])
    (h : ∀ x ∈ l, p x = true) : accOf p l = 1 := by
  have hcount : l.countP p = l.length := List.countP_eq_length.mpr h
  have hlen : (l.length : ℚ) ≠ 0 :=
    Nat.cast_ne_zero.mpr (List.length_pos.mpr hl).ne'
  simp only [accOf, hcount]
  exact div_self hlen

/-- C10: `ComputeAccuracyLoss` raises `ValueError` whenever the training
split yields fewer images than the test set. The training population is
loaded with `failure_on_insufficient_examples=False`, so a short train split
(`min trainDatasetSize 50000` images) is only logged; the explicit
comparison against the test-set size then raises, and no metric values are
returned. -/
theorem claim_C10_insufficient_train_raises (trainDatasetSize testCount batchSize
    numRepeat : ℕ) (out : ℕ → ℕ → BatchOut)
    (h : min trainDatasetSize max_train_examples < testCount) :
    ComputeAccuracyLoss trainDatasetSize testCount batchSize numRepeat out
      = .error "ValueError: num_train must be larger than num_test." := by
  have hget : GetRealImagesCount trainDatasetSize max_train_examples false
      = .ok (min trainDatasetSize max_train_examples) := by
    simp [GetRealImagesCount]
  simp only [ComputeAccuracyLoss, hget, ok_bind, h, if_true]
  rfl

/-- Witness for C10: a train split with 0 images and a test set with 1. -/
theorem claim_C10_witness :
    min 0 max_train_examples < 1 ∧
    ComputeAccuracyLoss 0 1 1 1 outPerfect
      = .error "ValueError: num_train must be larger than num_test." :=
  ⟨by decide, claim_C10_insufficient_train_raises 0 1 1 1 outPerfect (by decide)⟩

/-- C9: in every batch only element `[0]` of the discriminator-output
vectors is recorded, so each per-repeat accuracy is the average of
`num_batches` single-example indicator values (`headPreds` keeps exactly the
first element of each batch's prediction vector, and the averages' denominator
is the number of batches, not the number of scored examples). -/
theorem claim_C9_only_first_element_scored (trainDatasetSize testCount batchSize
    numRepeat : ℕ) (out : ℕ → ℕ → BatchOut)
    (htrain : testCount ≤ min trainDatasetSize max_train_examples)
    (hbs : batchSize ≠ 0) (hnb : testCount / batchSize ≠ 0)
    (hne : ∀ r i, (out r i).testPred ≠ [] ∧ (out r i).trainPred ≠ [] ∧
      (out r i).fakePred ≠ []) :
    ∃ res, ComputeAccuracyLoss trainDatasetSize testCount batchSize numRepeat out
        = .ok res ∧
      res.train_accuracy = npMean ((List.range numRepeat).map fun r =>
        accOf (fun x => decide (discriminator_threshold ≤ x))
          (headPreds BatchOut.trainPred out (testCount / batchSize) r)) ∧
      res.test_accuracy = npMean ((List.range numRepeat).map fun r =>
        accOf (fun x => decide (discriminator_threshold ≤ x))
          (headPreds BatchOut.testPred out (testCount / batchSize) r)) ∧
      res.fake_accuracy = npMean ((List.range numRepeat).map fun r =>
        accOf (fun x => decide (x < discriminator_threshold))
          (headPreds BatchOut.fakePred out (testCount / batchSize) r)) ∧
      ∀ r, (headPreds BatchOut.testPred out (testCount / batchSize) r).length
        = testCount / batchSize :=
  ⟨_, ComputeAccuracyLoss_ok trainDatasetSize testCount batchSize numRepeat out
      htrain hbs hnb hne,
   rfl, rfl, rfl, fun r => by simp [headPreds]⟩

/-- Witness for C9 at a concrete input. -/
theorem claim_C9_witness :
    (1 ≤ min 1 max_train_examples ∧ (1 : ℕ) ≠ 0 ∧ 1 / 1 ≠ 0 ∧
      (∀ r i : ℕ, (outPerfect r i).testPred ≠ [] ∧ (outPerfect r i).trainPred ≠ [] ∧
        (outPerfect r i).fakePred ≠ [])) ∧
    (∃ res, ComputeAccuracyLoss 1 1 1 1 outPerfect = .ok res ∧
      res.train_accuracy = npMean ((List.range 1).map fun r =>
        accOf (fun x => decide (discriminator_threshold ≤ x))
          (headPreds BatchOut.trainPred outPerfect (1 / 1) r)) ∧
      res.test_accuracy = npMean ((List.range 1).map fun r =>
        accOf (fun x => decide (discriminator_threshold ≤ x))
          (headPreds BatchOut.testPred outPerfect (1 / 1) r)) ∧
      res.fake_accuracy = npMean ((List.range 1).map fun r =>
        accOf (fun x => decide (x < discriminator_threshold))
          (headPreds BatchOut.fakePred outPerfect (1 / 1) r)) ∧
      ∀ r, (headPreds BatchOut.testPred outPerfect (1 / 1) r).length = 1 / 1) :=
  ⟨⟨by decide, by decide, by decide,
    fun r i => ⟨by simp [outPerfect], by simp [outPerfect], by simp [outPerfect]⟩⟩,
   claim_C9_only_first_element_scored 1 1 1 1 outPerfect (by decide) (by decide)
     (by decide)
     (fun r i => ⟨by simp [outPerfect], by simp [outPerfect], by simp [outPerfect]⟩)⟩

/-- C8 as stated is false at repeat count 1 with batch count 0: when the test
set is smaller than the batch size, `num_batches = 0` and the accuracy
computation divides by zero (`sum([]) / float(len([]))` raises
`ZeroDivisionError`), so nothing is returned, let alone accuracies of 1.0,
even for a perfect discriminator. -/
theorem claim_C8_counterexample :
    ComputeAccuracyLoss 1 0 1 1 outPerfect
      = .error "ZeroDivisionError: float division by zero" := by
  rfl

/-- C8 (amended): for any positive repeat count and positive batch count, a
discriminator that outputs exactly 1.0 on every real (train or test) input
and exactly 0.0 on every fake input yields
`train_accuracy = test_accuracy = fake_accuracy = 1.0` (thresholding at 0.5:
real predicted real iff output `≥ 0.5`, fake predicted fake iff output
`< 0.5`). -/
theorem claim_C8_perfect_discriminator (trainDatasetSize testCount batchSize
    numRepeat : ℕ) (out : ℕ → ℕ → BatchOut)
    (htrain : testCount ≤ min trainDatasetSize max_train_examples)
    (hbs : batchSize ≠ 0) (hnb : testCount / batchSize ≠ 0) (hnr : numRepeat ≠ 0)
    (hne : ∀ r i, (out r i).testPred ≠ [] ∧ (out r i).trainPred ≠ [] ∧
      (out r i).fakePred ≠ [])
    (hperfect : ∀ r i, (∀ x ∈ (out r i).testPred, x = 1) ∧
      (∀ x ∈ (out r i).trainPred, x = 1) ∧ (∀ x ∈ (out r i).fakePred, x = 0)) :
    ∃ res, ComputeAccuracyLoss trainDatasetSize testCount batchSize numRepeat out
        = .ok res ∧
      res.train_accuracy = some 1 ∧ res.test_accuracy = some 1 ∧
      res.fake_accuracy = some 1 := by
  have hnbpos : (List.range (testCount / batchSize)) ≠ [] := by
    simp [List.range_eq_nil, hnb]
  have hhead : ∀ (sel : BatchOut → List ℚ) (c : ℚ) r,
      (∀ i, sel (out r i) ≠ []) → (∀ i, ∀ x ∈ sel (out r i), x = c) →
      ∀ x ∈ headPreds sel out (testCount / batchSize) r, x = c := by
    intro sel c r hsel hval x hx
    simp only [headPreds, List.mem_map] at hx
    obtain ⟨i, _, rfl⟩ := hx
    exact headD_all_eq _ c (hsel i) (hval i)
  have hacc : ∀ (sel : BatchOut → List ℚ) (c : ℚ) (p : ℚ → Bool) r,
      (∀ i, sel (out r i) ≠ []) → (∀ i, ∀ x ∈ sel (out r i), x = c) →
      p c = true → accOf p (headPreds sel out (testCount / batchSize) r) = 1 := by
    intro sel c p r hsel hval hp
    refine accOf_all_true p _ (by simp [headPreds, List.range_eq_nil, hnb]) ?_
    intro x hx
    rw [hhead sel c r hsel hval x hx]
    exact hp
  refine ⟨_, ComputeAccuracyLoss_ok trainDatasetSize testCount batchSize numRepeat
    out htrain hbs hnb hne, ?_, ?_, ?_⟩
  · refine npMean_all_eq 1 _ (by simp [List.range_eq_nil, hnr]) ?_
    intro x hx
    simp only [List.mem_map] at hx
    obtain ⟨r, _, rfl⟩ := hx
    exact hacc BatchOut.trainPred 1 _ r (fun i => (hne r i).2.1)
      (fun i => (hperfect r i).2.1) (by norm_num [discriminator_threshold])
  · refine npMean_all_eq 1 _ (by simp [List.range_eq_nil, hnr]) ?_
    intro x hx
    simp only [List.mem_map] at hx
    obtain ⟨r, _, rfl⟩ := hx
    exact hacc BatchOut.testPred 1 _ r (fun i => (hne r i).1)
      (fun i => (hperfect r i).1) (by norm_num [discriminator_threshold])
  · refine npMean_all_eq 1 _ (by simp [List.range_eq_nil, hnr]) ?_
    intro x hx
    simp only [List.mem_map] at hx
    obtain ⟨r, _, rfl⟩ := hx
    exact hacc BatchOut.fakePred 0 _ r (fun i => (hne r i).2.2)
      (fun i => (hperfect r i).2.2) (by norm_num [discriminator_threshold])

/-- Witness for the amended C8 at a concrete input. -/
theorem claim_C8_witness :
    (1 ≤ min 1 max_train_examples ∧ (1 : ℕ) ≠ 0 ∧ 1 / 1 ≠ 0 ∧ (1 : ℕ) ≠ 0) ∧
    (∃ res, ComputeAccuracyLoss 1 1 1 1 outPerfect = .ok res ∧
      res.train_accuracy = some 1 ∧ res.test_accuracy = some 1 ∧
      res.fake_accuracy = some 1) :=
  ⟨⟨by decide, by decide, by decide, by decide⟩,
   claim_C8_perfect_discriminator 1 1 1 1 outPerfect (by decide) (by decide)
     (by decide) (by decide)
     (fun r i => ⟨by simp [outPerfect], by simp [outPerfect], by simp [outPerfect]⟩)
     (fun r i => by
       refine ⟨?_, ?_, ?_⟩ <;> intro x hx <;> simp [outPerfect] at hx <;> simp [hx])⟩

/-- Oracle for C7: two repeats, one batch per repeat; the discriminator
losses are 0 in repeat 0 and 2 in repeat 1. -/
def outC7 : ℕ → ℕ → BatchOut :=
  fun r _ => ⟨[1], if r = 0 then 0 else 2, [1], if r = 0 then 0 else 2, [0]⟩

/-- C7 is a code bug: the source re-initializes `train_d_losses` and
`test_d_losses` inside the repeat loop, so the reported losses are computed
from the last repeat only (its per-batch losses plus their appended mean),
not the mean over the per-repeat values as the docstring ("The mean of all
the results is reported.") and the spec state. With per-repeat mean losses
0 and 2, the code reports 2 while the mean across repeats is 1. -/
theorem claim_C7_loss_not_mean_across_repeats :
    ∃ res, ComputeAccuracyLoss 10 1 1 2 outC7 = .ok res ∧
      res.train_d_loss = some 2 ∧ res.test_d_loss = some 2 ∧
      npMean ((List.range 2).map fun r =>
        meanQ (batchLosses BatchOut.trainLoss outC7 1 r)) = some 1 ∧
      npMean ((List.range 2).map fun r =>
        meanQ (batchLosses BatchOut.testLoss outC7 1 r)) = some 1 ∧
      (2 : ℚ) ≠ 1 := by
  have h := ComputeAccuracyLoss_ok 10 1 1 2 outC7 (by decide) (by decide) (by decide)
    (fun r i => ⟨by simp [outC7], by simp [outC7], by simp [outC7]⟩)
  refine ⟨_, h, ?_, ?_, ?_, ?_, by norm_num⟩
  · show npMean (if (2:ℕ) = 0 then [] else (repeatOutSpec outC7 (1/1) (2-1)).trainLossVar)
      = some 2
    norm_num [repeatOutSpec, batchLosses, outC7, meanQ, npMean, List.range_succ]
  · show npMean (if (2:ℕ) = 0 then [] else (repeatOutSpec outC7 (1/1) (2-1)).testLossVar)
      = some 2
    norm_num [repeatOutSpec, batchLosses, outC7, meanQ, npMean, List.range_succ]
  · norm_num [batchLosses, outC7, meanQ, npMean, List.range_succ]
  · norm_num [batchLosses, outC7, meanQ, npMean, List.range_succ]

/-! ## `RunCheckpointEval`: populations, NaN detection, channel handling

Images are nested lists: an `Image` is `H` rows of `W` pixels of `C` channel
values, a `Batch` is a list of images, matching a numpy array of shape
`(N, H, W, C)`. Pixel values are `PyVal` so that NaN and infinities are
distinguishable the way `np.isnan` distinguishes them. -/

/-- Python float value inside an image: finite, NaN, or an infinity. -/
inductive PyVal where
  | finite (q : ℚ)
  | nan
  | inf
deriving DecidableEq

/-- Model of `np.isnan` on one value: true only on NaN; infinities are
non-finite but not NaN. -/
def PyVal.isnan : PyVal → Bool
  | .nan => true
  | _ => false

/-- Whether a value is finite; infinities and NaN are not. -/
def PyVal.isFinite : PyVal → Bool
  | .finite _ => true
  | _ => false

/-- Multiplication of a pixel value by a positive rational scalar
(`real_images *= 255.0`, `fake_images *= 255.0`). -/
def PyVal.scale (c : ℚ) : PyVal → PyVal
  | .finite q => .finite (c * q)
  | .nan => .nan
  | .inf => .inf

/-- One image: rows of pixels of channel values. -/
abbrev Image := List (List (List PyVal))

/-- An image population, numpy shape `(N, H, W, C)`. -/
abbrev Batch := List Image

/-- Model of `np.isnan(x).any()` on one generated batch. -/
def batchHasNan (b : Batch) : Bool :=
  b.any fun img => img.any fun row => row.any fun px => px.any PyVal.isnan

/-- Rescales every channel value of an image. -/
def scaleImage (c : ℚ) (img : Image) : Image :=
  img.map (List.map (List.map (PyVal.scale c)))

/-- Rescales every channel value of a population (`images *= 255.0`). -/
def scaleBatch (c : ℚ) (b : Batch) : Batch := b.map (scaleImage c)

/-- Model of `np.tile(images, [1, 1, 1, 3])`: repeats the channel axis three
times, turning a 1-channel pixel `[v]` into `[v, v, v]`. -/
def tileImage (img : Image) : Image :=
  img.map fun row => row.map fun px => px ++ px ++ px

/-- Channel tiling of a whole population. -/
def tileBatch (b : Batch) : Batch := b.map tileImage

/-- Dimensions `(H, W, C)` of an image, read like numpy's `shape` off the
first row and first pixel (populations built by the pipeline are regular). -/
def imageDims (img : Image) : ℕ × ℕ × ℕ :=
  (img.length, (img.headD []).length, ((img.headD []).headD []).length)

/-- Shape `(N, (H, W, C))` of a population. -/
def batchDims (b : Batch) : ℕ × (ℕ × ℕ × ℕ) := (b.length, imageDims (b.headD []))

/-- Channel count `shape[3]` of a population. -/
def batchChannels (b : Batch) : ℕ := (((b.headD []).headD []).headD []).length

/-- Shape predicate: the population has numpy shape `(n, h, w, c)` with every
row, pixel and channel list regular. -/
def hasShape (b : Batch) (n h w c : ℕ) : Prop :=
  b.length = n ∧ ∀ img ∈ b, img.length = h ∧
    ∀ row ∈ img, row.length = w ∧ ∀ px ∈ row, px.length = c

/-- Channel list of the pixel at image `i`, row `j`, column `k` (with `[]`
for an out-of-range index). -/
def pixelAt (b : Batch) (i j k : ℕ) : List PyVal := ((b.getD i []).getD j []).getD k []

/-- Model of `GetRealImages` on the actual images: reads `numExamples` images
one at a time, stopping at the end of the dataset; a short read raises
`ValueError` when `failureOnInsufficientExamples` is true and is otherwise
only logged; pixels are rescaled by 255 before returning. -/
def GetRealImages (dataset : List Image) (numExamples : ℕ)
    (failureOnInsufficientExamples : Bool) : Except String Batch :=
  let xs := dataset.take numExamples
  if xs.length ≠ numExamples && failureOnInsufficientExamples then
    .error "ValueError: Not enough examples in the dataset"
  else .ok (xs.map (scaleImage 255))

/-- Reduction of `num_test_examples` to a multiple of `INCEPTION_BATCH`
(`num_test_examples -= num_test_examples % INCEPTION_BATCH` when the
remainder is nonzero). -/
def padNumTestExamples (n : ℕ) : ℕ :=
  if n % INCEPTION_BATCH ≠ 0 then n - n % INCEPTION_BATCH else n

/-- Model of `int(np.ceil(num_test_examples / gan.batch_size))` for a
positive batch size. -/
def numGenBatches (numTest batchSize : ℕ) : ℕ := (numTest + batchSize - 1) / batchSize

/-- Errors of one checkpoint evaluation: `NanFoundError` (caught by the
sweep) or any other exception (`ValueError`, `AssertionError`, ..., not
caught by the sweep). -/
inductive EvalError where
  | nanFound
  | other (msg : String)
deriving DecidableEq

/-- The generation loop of `RunCheckpointEval`: runs the generator
`numBatches` times in order, appending each batch to `samples`; a batch
containing a NaN raises `NanFoundError` immediately. -/
def genSamples (gen : ℕ → Batch) (numBatches : ℕ) : Except EvalError (List Batch) :=
  (List.range numBatches).foldlM
    (fun acc k =>
      if batchHasNan (gen k) then .error .nanFound else .ok (acc ++ [gen k]))
    []

/-- Reinterprets a `ValueError` raised by `GetRealImages` as an uncaught
checkpoint error. -/
def liftValue : Except String Batch → Except EvalError Batch
  | .error e => .error (.other e)
  | .ok b => .ok b

/-- Python `dict.update`: `dictUpdate d1 d2` is `d1` updated with `d2`; with
first-match `List.lookup`, the entries of `d2` win, so they are put first. -/
def dictUpdate (d1 d2 : List (String × ℚ)) : List (String × ℚ) := d2 ++ d1

/-- Inputs of one checkpoint evaluation. The TensorFlow session is
abstracted by oracles: `gen k` is the batch `sess.run(gan.fake_images, ...)`
returns for the `k`-th latent sample, and the two result fields are the
merged metric dictionaries of all tasks' `RunInSession` and
`RunAfterSession` hooks. `ganTypeSupported` stands for
`options["gan_type"] in SUPPORTED_GANS`; the membership itself is not
modelled because `consts.MODELS_WITH_PENALTIES`, one summand of
`SUPPORTED_GANS`, is outside the given source file. `evalTestSamples` is
`dataset_params.get("eval_test_samples", 10000)` after the options update. -/
structure EvalInputs where
  ganTypeSupported : Bool
  evalTestSamples : ℕ
  dataset : List Image
  batchSize : ℕ
  gen : ℕ → Batch
  inSessionResults : List (String × ℚ)
  afterSessionResults : List (String × ℚ)

/-- Result of one checkpoint evaluation: the merged metric dictionary
together with the two materialized populations exactly as the source passes
them to every task's `RunAfterSession` hook (exposed so that properties of
the populations can be stated). -/
structure EvalOutcome where
  resultDict : List (String × ℚ)
  fakeImages : Batch
  realImages : Batch
deriving DecidableEq

/-- Model of `RunCheckpointEval`: checks the GAN type, rounds the test-count
down to a multiple of `INCEPTION_BATCH`, loads the real population (failure
fatal), generates `ceil(num_test / batch_size)` whole fake batches with a
NaN check per batch, truncates the concatenation to `num_test`, asserts the
two populations have equal shape, broadcasts a single channel to three on
both populations, rescales the fake pixels by 255 and runs the after-session
task hooks. -/
def RunCheckpointEval (inp : EvalInputs) : Except EvalError EvalOutcome := do
  if inp.ganTypeSupported = false then
    throw (.other "ValueError: Gan type is not supported.")
  let numTest := padNumTestExamples inp.evalTestSamples
  let realImages0 ← liftValue (GetRealImages inp.dataset numTest true)
  if inp.batchSize = 0 then
    throw (.other "ZeroDivisionError: division by zero")
  let samples ← genSamples inp.gen (numGenBatches numTest inp.batchSize)
  let resultDict1 := dictUpdate [] inp.inSessionResults
  let fakeImages0 := samples.flatten.take numTest
  if batchDims fakeImages0 ≠ batchDims realImages0 then
    throw (.other "AssertionError: fake_images.shape == real_images.shape")
  let fr := if batchChannels fakeImages0 = 1 then
      (tileBatch fakeImages0, tileBatch realImages0)
    else (fakeImages0, realImages0)
  let fakeImages1 := scaleBatch 255 fr.1
  pure ⟨dictUpdate resultDict1 inp.afterSessionResults, fakeImages1, fr.2⟩

/-- Target example count of a checkpoint evaluation. -/
def numTestOf (inp : EvalInputs) : ℕ := padNumTestExamples inp.evalTestSamples

/-- The fake population at the moment the shape assertion runs: the
generated batches concatenated and truncated to the target count. -/
def generatedFake (inp : EvalInputs) : Batch :=
  (((List.range (numGenBatches (numTestOf inp) inp.batchSize)).map inp.gen).flatten).take
    (numTestOf inp)

/-- The real population at the moment the shape assertion runs: the first
`numTest` dataset images, rescaled by 255. -/
def realPopulation (inp : EvalInputs) : Batch :=
  (inp.dataset.take (numTestOf inp)).map (scaleImage 255)

/-! ## Characterization of `RunCheckpointEval` -/

theorem genSamples_ok (gen : ℕ → Batch) (nb : ℕ)
    (h : ∀ k, batchHasNan (gen k) = false) :
    genSamples gen nb = .ok ((List.range nb).map gen) := by
  suffices haux : ∀ (n : ℕ) (acc : List Batch),
      (List.range n).foldlM (fun acc k =>
        if batchHasNan (gen k) then (.error .nanFound : Except EvalError (List Batch))
        else .ok (acc ++ [gen k])) acc
      = .ok (acc ++ (List.range n).map gen) by
    simpa [genSamples] using haux nb []
  intro n
  induction n with
  | zero => intro acc; simp; rfl
  | succ m ih =>
    intro acc
    rw [List.range_succ, List.foldlM_append, ih acc, ok_bind]
    simp [h m, List.range_succ]

theorem flatten_map_length (gen : ℕ → Batch) (bs : ℕ)
    (h : ∀ k, (gen k).length = bs) :
    ∀ nb, ((List.range nb).map gen).flatten.length = nb * bs := by
  intro nb
  induction nb with
  | zero => simp
  | succ m ih =>
    rw [List.range_succ]
    simp [ih, h m, Nat.succ_mul]

theorem le_numGenBatches_mul (numTest bs : ℕ) (hbs : bs ≠ 0) :
    numTest ≤ numGenBatches numTest bs * bs := by
  have h1 := Nat.div_add_mod (numTest + bs - 1) bs
  have h2 : (numTest + bs - 1) % bs < bs := Nat.mod_lt _ (Nat.pos_of_ne_zero hbs)
  have hpos : 1 ≤ bs := Nat.pos_of_ne_zero hbs
  rw [numGenBatches, mul_comm]
  omega

theorem GetRealImages_ok (dataset : List Image) (n : ℕ) (hn : n ≤ dataset.length)
    (fail : Bool) :
    GetRealImages dataset n fail = .ok ((dataset.take n).map (scaleImage 255)) := by
  simp [GetRealImages, List.length_take, min_eq_left hn]

theorem generatedFake_length (inp : EvalInputs) (hbs : inp.batchSize ≠ 0)
    (hlen : ∀ k, (inp.gen k).length = inp.batchSize) :
    (generatedFake inp).length = numTestOf inp := by
  rw [generatedFake, List.length_take,
    flatten_map_length inp.gen inp.batchSize hlen]
  exact min_eq_left (le_numGenBatches_mul _ _ hbs)

theorem realPopulation_length (inp : EvalInputs)
    (hds : numTestOf inp ≤ inp.dataset.length) :
    (realPopulation inp).length = numTestOf inp := by
  rw [realPopulation, List.length_map, List.length_take]
  exact min_eq_left hds

/-- Characterization of `RunCheckpointEval` on the success path, in terms of
`generatedFake` and `realPopulation`. -/
theorem RunCheckpointEval_ok (inp : EvalInputs)
    (hsup : inp.ganTypeSupported = true)
    (hbs : inp.batchSize ≠ 0)
    (hds : numTestOf inp ≤ inp.dataset.length)
    (hnonan : ∀ k, batchHasNan (inp.gen k) = false)
    (hassert : batchDims (generatedFake inp) = batchDims (realPopulation inp)) :
    RunCheckpointEval inp = .ok
      ⟨dictUpdate (dictUpdate [] inp.inSessionResults) inp.afterSessionResults,
       scaleBatch 255 (if batchChannels (generatedFake inp) = 1
         then tileBatch (generatedFake inp) else generatedFake inp),
       if batchChannels (generatedFake inp) = 1
         then tileBatch (realPopulation inp) else realPopulation inp⟩ := by
  have hreal : GetRealImages inp.dataset (padNumTestExamples inp.evalTestSamples) true
      = .ok (realPopulation inp) :=
    GetRealImages_ok inp.dataset _ hds true
  have hgen := genSamples_ok inp.gen
    (numGenBatches (padNumTestExamples inp.evalTestSamples) inp.batchSize) hnonan
  have hfake :
      (((List.range (numGenBatches (padNumTestExamples inp.evalTestSamples)
        inp.batchSize)).map inp.gen).flatten).take (padNumTestExamples inp.evalTestSamples)
      = generatedFake inp := rfl
  simp only [RunCheckpointEval, hsup, Bool.true_eq_false, if_false, hreal, liftValue,
    ok_bind, hbs, hgen, hfake, hassert, ne_eq, not_true_eq_false,
    Bool.false_eq_true, pure_eq_ok]
  by_cases hc : batchChannels (generatedFake inp) = 1 <;> simp [hc]

/-! ## Shape lemmas and claim C4 -/

theorem headD_mem {α : Type} (l : List α) (d : α) (h : l ≠ []) : l.headD d ∈ l := by
  cases l with
  | nil => exact absurd rfl h
  | cons a as => exact List.mem_cons_self a as

theorem imageDims_scaleImage (c : ℚ) (img : Image) :
    imageDims (scaleImage c img) = imageDims img := by
  rcases img with _ | ⟨row, rest⟩
  · rfl
  · rcases row with _ | ⟨px, prest⟩
    · simp [imageDims, scaleImage]
    · simp [imageDims, scaleImage]

theorem imageDims_tileImage (img : Image) :
    imageDims (tileImage img) =
      (img.length, (img.headD []).length, 3 * ((img.headD []).headD []).length) := by
  rcases img with _ | ⟨row, rest⟩
  · rfl
  · rcases row with _ | ⟨px, prest⟩
    · simp [imageDims, tileImage]
    · simp [imageDims, tileImage]
      omega

theorem batchDims_scaleBatch (c : ℚ) (b : Batch) :
    batchDims (scaleBatch c b) = batchDims b := by
  rcases b with _ | ⟨img, rest⟩
  · rfl
  · simp [batchDims, scaleBatch, imageDims_scaleImage]

theorem batchDims_tileBatch (b : Batch) :
    batchDims (tileBatch b) =
      ((batchDims b).1, (batchDims b).2.1, (batchDims b).2.2.1,
        3 * (batchDims b).2.2.2) := by
  rcases b with _ | ⟨img, rest⟩
  · simp [batchDims, tileBatch, imageDims]
  · simp only [tileBatch, List.map_cons, batchDims, List.headD_cons,
      List.length_cons, List.length_map, imageDims_tileImage]
    simp [imageDims]

theorem mem_generatedFake (inp : EvalInputs) (img : Image)
    (h : img ∈ generatedFake inp) : ∃ k, img ∈ inp.gen k := by
  have h1 := List.mem_of_mem_take h
  obtain ⟨l, hl, hil⟩ := List.mem_flatten.mp h1
  obtain ⟨k, _, rfl⟩ := List.mem_map.mp hl
  exact ⟨k, hil⟩

theorem batchDims_populations_eq (inp : EvalInputs) (dims0 : ℕ × ℕ × ℕ)
    (hbs : inp.batchSize ≠ 0)
    (hlen : ∀ k, (inp.gen k).length = inp.batchSize)
    (hds : numTestOf inp ≤ inp.dataset.length)
    (hdimd : ∀ img ∈ inp.dataset, imageDims img = dims0)
    (hdimg : ∀ k, ∀ img ∈ inp.gen k, imageDims img = dims0) :
    batchDims (generatedFake inp) = batchDims (realPopulation inp) := by
  rw [batchDims, batchDims, generatedFake_length inp hbs hlen,
    realPopulation_length inp hds]
  by_cases h0 : numTestOf inp = 0
  · have hf : generatedFake inp = [] :=
      List.length_eq_zero.mp (by rw [generatedFake_length inp hbs hlen, h0])
    have hr : realPopulation inp = [] :=
      List.length_eq_zero.mp (by rw [realPopulation_length inp hds, h0])
    rw [hf, hr]
  · have hfne : generatedFake inp ≠ [] := by
      intro he
      exact h0 (by rw [← generatedFake_length inp hbs hlen, he]; rfl)
    have hrne : realPopulation inp ≠ [] := by
      intro he
      exact h0 (by rw [← realPopulation_length inp hds, he]; rfl)
    have h1 : imageDims ((generatedFake inp).headD []) = dims0 := by
      obtain ⟨k, hk⟩ := mem_generatedFake inp _ (headD_mem _ _ hfne)
      exact hdimg k _ hk
    have h2 : imageDims ((realPopulation inp).headD []) = dims0 := by
      have hmem : (realPopulation inp).headD [] ∈ realPopulation inp :=
        headD_mem _ _ hrne
      rw [realPopulation] at hmem ⊢
      obtain ⟨img, himg, hEq⟩ := List.mem_map.mp hmem
      rw [← hEq, imageDims_scaleImage]
      exact hdimd img (List.mem_of_mem_take himg)
    rw [h1, h2]

theorem padNumTestExamples_mod (n : ℕ) :
    padNumTestExamples n % INCEPTION_BATCH = 0 := by
  simp only [padNumTestExamples, INCEPTION_BATCH]
  by_cases h : n % 50 = 0
  · simp [h]
  · simp only [h, ne_eq, not_false_eq_true, if_true]
    omega

theorem padNumTestExamples_le (n : ℕ) : padNumTestExamples n ≤ n := by
  simp only [padNumTestExamples]
  split <;> omega

/-- C4: the target example count is `eval_test_samples` rounded down to a
multiple of `INCEPTION_BATCH = 50`; generation produces
`ceil(num_test / batch_size)` whole batches — at least `num_test` images,
the last batch possibly overshooting — and truncates to exactly `num_test`,
so when the materialized-image task hooks run the fake and real populations
have identical shape with `len(fake) = len(real) = num_test_examples`. -/
theorem claim_C4_population_sizes (inp : EvalInputs) (dims0 : ℕ × ℕ × ℕ)
    (hsup : inp.ganTypeSupported = true)
    (hbs : inp.batchSize ≠ 0)
    (hds : numTestOf inp ≤ inp.dataset.length)
    (hlen : ∀ k, (inp.gen k).length = inp.batchSize)
    (hnonan : ∀ k, batchHasNan (inp.gen k) = false)
    (hdimd : ∀ img ∈ inp.dataset, imageDims img = dims0)
    (hdimg : ∀ k, ∀ img ∈ inp.gen k, imageDims img = dims0) :
    ∃ out, RunCheckpointEval inp = .ok out ∧
      out.fakeImages.length = numTestOf inp ∧
      out.realImages.length = numTestOf inp ∧
      batchDims out.fakeImages = batchDims out.realImages ∧
      numTestOf inp = padNumTestExamples inp.evalTestSamples ∧
      numTestOf inp % INCEPTION_BATCH = 0 ∧
      numTestOf inp ≤ inp.evalTestSamples ∧
      numTestOf inp ≤ numGenBatches (numTestOf inp) inp.batchSize * inp.batchSize := by
  have hassert := batchDims_populations_eq inp dims0 hbs hlen hds hdimd hdimg
  refine ⟨_, RunCheckpointEval_ok inp hsup hbs hds hnonan hassert, ?_, ?_, ?_,
    rfl, padNumTestExamples_mod _, padNumTestExamples_le _,
    le_numGenBatches_mul _ _ hbs⟩
  · by_cases hc : batchChannels (generatedFake inp) = 1 <;>
      simp [hc, scaleBatch, tileBatch, generatedFake_length inp hbs hlen]
  · by_cases hc : batchChannels (generatedFake inp) = 1 <;>
      simp [hc, tileBatch, realPopulation_length inp hds]
  · by_cases hc : batchChannels (generatedFake inp) = 1 <;>
      simp [hc, batchDims_scaleBatch, batchDims_tileBatch, hassert]

/-- Concrete checkpoint-evaluation input used by witnesses: 50 one-pixel
one-channel dataset images, batch size 30, constant generator (two generated
batches of 30, truncated to 50). -/
def inpC4 : EvalInputs :=
  ⟨true, 50, List.replicate 50 [[[PyVal.finite 2]]], 30,
   fun _ => List.replicate 30 [[[PyVal.finite 1]]], [], []⟩

/-- Witness for C4 at a concrete input. -/
theorem claim_C4_witness :
    (inpC4.ganTypeSupported = true ∧ inpC4.batchSize ≠ 0 ∧
      numTestOf inpC4 ≤ inpC4.dataset.length ∧
      (∀ k, (inpC4.gen k).length = inpC4.batchSize) ∧
      (∀ k, batchHasNan (inpC4.gen k) = false) ∧
      (∀ img ∈ inpC4.dataset, imageDims img = (1, 1, 1)) ∧
      (∀ k, ∀ img ∈ inpC4.gen k, imageDims img = (1, 1, 1))) ∧
    (∃ out, RunCheckpointEval inpC4 = .ok out ∧
      out.fakeImages.length = numTestOf inpC4 ∧
      out.realImages.length = numTestOf inpC4 ∧
      batchDims out.fakeImages = batchDims out.realImages ∧
      numTestOf inpC4 = padNumTestExamples inpC4.evalTestSamples ∧
      numTestOf inpC4 % INCEPTION_BATCH = 0 ∧
      numTestOf inpC4 ≤ inpC4.evalTestSamples ∧
      numTestOf inpC4 ≤ numGenBatches (numTestOf inpC4) inpC4.batchSize
        * inpC4.batchSize) :=
  ⟨⟨rfl, by decide, by decide, fun k => rfl, fun k => rfl, by decide,
    fun k => by simp only [inpC4]; decide⟩,
   claim_C4_population_sizes inpC4 (1, 1, 1) rfl (by decide) (by decide)
     (fun k => rfl) (fun k => rfl) (by decide)
     (fun k => by simp only [inpC4]; decide)⟩

/-! ## Pixel-level lemmas and claim C6 -/

theorem getD_map_lt {α β : Type} (g : α → β) (l : List α) (i : ℕ)
    (hi : i < l.length) (d : α) (d' : β) :
    (l.map g).getD i d' = g (l.getD i d) := by
  rw [List.getD_eq_getElem?_getD, List.getD_eq_getElem?_getD, List.getElem?_map,
    List.getElem?_eq_getElem hi]
  rfl

theorem getD_take_lt {α : Type} (l : List α) (n i : ℕ) (hi : i < n) (d : α) :
    (l.take n).getD i d = l.getD i d := by
  rw [List.getD_eq_getElem?_getD, List.getD_eq_getElem?_getD, List.getElem?_take]
  simp [hi]

theorem getD_mem_of_lt {α : Type} (l : List α) (i : ℕ) (d : α)
    (h : i < l.length) : l.getD i d ∈ l := by
  rw [List.getD_eq_getElem?_getD, List.getElem?_eq_getElem h]
  exact List.getElem_mem h

theorem hasShape_bounds (b : Batch) (n h w c : ℕ) (hb : hasShape b n h w c)
    (i j k : ℕ) (hi : i < n) (hj : j < h) (hk : k < w) :
    i < b.length ∧ j < (b.getD i []).length ∧
      k < ((b.getD i []).getD j []).length ∧ (pixelAt b i j k).length = c := by
  obtain ⟨hn, hall⟩ := hb
  have hib : i < b.length := hn ▸ hi
  have himg := hall (b.getD i []) (getD_mem_of_lt b i [] hib)
  have hjb : j < (b.getD i []).length := himg.1 ▸ hj
  have hrow := himg.2 ((b.getD i []).getD j []) (getD_mem_of_lt _ j [] hjb)
  have hkb : k < ((b.getD i []).getD j []).length := hrow.1 ▸ hk
  have hpx := hrow.2 _ (getD_mem_of_lt _ k [] hkb)
  exact ⟨hib, hjb, hkb, hpx⟩

theorem pixelAt_mapped (F : List PyVal → List PyVal) (b : Batch) (i j k : ℕ)
    (hi : i < b.length) (hj : j < (b.getD i []).length)
    (hk : k < ((b.getD i []).getD j []).length) :
    pixelAt (b.map fun img => img.map fun row => row.map F) i j k
      = F (pixelAt b i j k) := by
  unfold pixelAt
  rw [getD_map_lt _ b i hi [] [], getD_map_lt _ (b.getD i []) j hj [] [],
    getD_map_lt F ((b.getD i []).getD j []) k hk [] []]

theorem pixelAt_trans (F : List PyVal → List PyVal) (b : Batch) (n h w c : ℕ)
    (hb : hasShape b n h w c) (i j k : ℕ) (hi : i < n) (hj : j < h) (hk : k < w) :
    pixelAt (b.map fun img => img.map fun row => row.map F) i j k
      = F (pixelAt b i j k) := by
  obtain ⟨hib, hjb, hkb, _⟩ := hasShape_bounds b n h w c hb i j k hi hj hk
  exact pixelAt_mapped F b i j k hib hjb hkb

theorem hasShape_map (F : List PyVal → List PyVal) (b : Batch) (n h w c c' : ℕ)
    (hF : ∀ px : List PyVal, px.length = c → (F px).length = c')
    (hb : hasShape b n h w c) :
    hasShape (b.map fun img => img.map fun row => row.map F) n h w c' := by
  obtain ⟨hn, hall⟩ := hb
  refine ⟨by simpa using hn, ?_⟩
  intro img himg
  obtain ⟨img0, himg0, rfl⟩ := List.mem_map.mp himg
  have h0 := hall img0 himg0
  refine ⟨by simpa using h0.1, ?_⟩
  intro row hrow
  obtain ⟨row0, hrow0, rfl⟩ := List.mem_map.mp hrow
  have h1 := h0.2 row0 hrow0
  refine ⟨by simpa using h1.1, ?_⟩
  intro px hpx
  obtain ⟨px0, hpx0, rfl⟩ := List.mem_map.mp hpx
  exact hF px0 (h1.2 px0 hpx0)

theorem tileBatch_eq (b : Batch) :
    tileBatch b = b.map fun img => img.map fun row =>
      row.map (fun px => px ++ px ++ px) := rfl

theorem scaleBatch_eq (c : ℚ) (b : Batch) :
    scaleBatch c b = b.map fun img => img.map fun row =>
      row.map (List.map (PyVal.scale c)) := rfl

theorem headD_eq_getD {α : Type} (l : List α) (d : α) : l.headD d = l.getD 0 d := by
  cases l <;> rfl

theorem batchChannels_eq_pixelAt (b : Batch) :
    batchChannels b = (pixelAt b 0 0 0).length := by
  rw [batchChannels, pixelAt, headD_eq_getD, headD_eq_getD, headD_eq_getD]

theorem imageDims_of_shape (img : Image) (H W C : ℕ) (hH : 0 < H) (hW : 0 < W)
    (h : img.length = H ∧ ∀ row ∈ img, row.length = W ∧ ∀ px ∈ row, px.length = C) :
    imageDims img = (H, W, C) := by
  obtain ⟨h1, h2⟩ := h
  have hne : img ≠ [] := by
    intro he
    rw [he] at h1
    simp at h1
    omega
  have hrow := h2 (img.headD []) (headD_mem _ _ hne)
  have hrne : img.headD [] ≠ [] := by
    intro he
    rw [he] at hrow
    simp at hrow
    omega
  have hpx := hrow.2 ((img.headD []).headD []) (headD_mem _ _ hrne)
  simp only [imageDims]
  rw [h1, hrow.1, hpx]

theorem hasShape_generatedFake (inp : EvalInputs) (H W C : ℕ)
    (hbs : inp.batchSize ≠ 0)
    (hlen : ∀ k, (inp.gen k).length = inp.batchSize)
    (hshapeg : ∀ k, ∀ img ∈ inp.gen k, img.length = H ∧
      ∀ row ∈ img, row.length = W ∧ ∀ px ∈ row, px.length = C) :
    hasShape (generatedFake inp) (numTestOf inp) H W C := by
  refine ⟨generatedFake_length inp hbs hlen, ?_⟩
  intro img himg
  obtain ⟨k, hk⟩ := mem_generatedFake inp img himg
  exact hshapeg k img hk

theorem hasShape_take_dataset (inp : EvalInputs) (H W C : ℕ)
    (hds : numTestOf inp ≤ inp.dataset.length)
    (hshaped : ∀ img ∈ inp.dataset, img.length = H ∧
      ∀ row ∈ img, row.length = W ∧ ∀ px ∈ row, px.length = C) :
    hasShape (inp.dataset.take (numTestOf inp)) (numTestOf inp) H W C := by
  refine ⟨by rw [List.length_take]; exact min_eq_left hds, ?_⟩
  intro img himg
  exact hshaped img (List.mem_of_mem_take himg)

theorem hasShape_realPopulation (inp : EvalInputs) (H W C : ℕ)
    (hds : numTestOf inp ≤ inp.dataset.length)
    (hshaped : ∀ img ∈ inp.dataset, img.length = H ∧
      ∀ row ∈ img, row.length = W ∧ ∀ px ∈ row, px.length = C) :
    hasShape (realPopulation inp) (numTestOf inp) H W C := by
  have hre : realPopulation inp = scaleBatch 255 (inp.dataset.take (numTestOf inp)) := rfl
  rw [hre, scaleBatch_eq]
  exact hasShape_map _ _ _ _ _ _ C (fun px hpx => by simpa using hpx)
    (hasShape_take_dataset inp H W C hds hshaped)

theorem length_one_exists (px : List PyVal) (h : px.length = 1) : ∃ v, px = [v] := by
  cases px with
  | nil => simp at h
  | cons a as =>
    cases as with
    | nil => exact ⟨a, rfl⟩
    | cons b bs => simp at h

/-- C6: for a checkpoint evaluation whose populations have exactly one
channel, both populations are broadcast to three channels before the
materialized-image task hooks run: the results have shape `(N, H, W, 3)`,
the three channel values of every pixel are equal copies of the original
single channel, and the fake pixels are additionally rescaled from the
generator's `[0, 1]` range to `[0, 255]` (the real pixels were already
rescaled by `GetRealImages` when loaded). -/
theorem claim_C6_channel_broadcast (inp : EvalInputs) (H W : ℕ)
    (hsup : inp.ganTypeSupported = true)
    (hbs : inp.batchSize ≠ 0)
    (hds : numTestOf inp ≤ inp.dataset.length)
    (hlen : ∀ k, (inp.gen k).length = inp.batchSize)
    (hnonan : ∀ k, batchHasNan (inp.gen k) = false)
    (hpos : 0 < numTestOf inp) (hH : 0 < H) (hW : 0 < W)
    (hshaped : ∀ img ∈ inp.dataset, img.length = H ∧
      ∀ row ∈ img, row.length = W ∧ ∀ px ∈ row, px.length = 1)
    (hshapeg : ∀ k, ∀ img ∈ inp.gen k, img.length = H ∧
      ∀ row ∈ img, row.length = W ∧ ∀ px ∈ row, px.length = 1) :
    ∃ out, RunCheckpointEval inp = .ok out ∧
      hasShape out.fakeImages (numTestOf inp) H W 3 ∧
      hasShape out.realImages (numTestOf inp) H W 3 ∧
      (∀ i j k, i < numTestOf inp → j < H → k < W →
        (∃ v, pixelAt (generatedFake inp) i j k = [v] ∧
          pixelAt out.fakeImages i j k
            = [PyVal.scale 255 v, PyVal.scale 255 v, PyVal.scale 255 v]) ∧
        (∃ u, pixelAt (inp.dataset.take (numTestOf inp)) i j k = [u] ∧
          pixelAt out.realImages i j k
            = [PyVal.scale 255 u, PyVal.scale 255 u, PyVal.scale 255 u])) := by
  have hsf : hasShape (generatedFake inp) (numTestOf inp) H W 1 :=
    hasShape_generatedFake inp H W 1 hbs hlen hshapeg
  have hst : hasShape (inp.dataset.take (numTestOf inp)) (numTestOf inp) H W 1 :=
    hasShape_take_dataset inp H W 1 hds hshaped
  have hsr : hasShape (realPopulation inp) (numTestOf inp) H W 1 :=
    hasShape_realPopulation inp H W 1 hds hshaped
  have hdimd : ∀ img ∈ inp.dataset, imageDims img = (H, W, 1) :=
    fun img himg => imageDims_of_shape img H W 1 hH hW (hshaped img himg)
  have hdimg : ∀ k, ∀ img ∈ inp.gen k, imageDims img = (H, W, 1) :=
    fun k img himg => imageDims_of_shape img H W 1 hH hW (hshapeg k img himg)
  have hassert := batchDims_populations_eq inp (H, W, 1) hbs hlen hds hdimd hdimg
  have hchan : batchChannels (generatedFake inp) = 1 := by
    rw [batchChannels_eq_pixelAt]
    exact (hasShape_bounds _ _ _ _ _ hsf 0 0 0 hpos hH hW).2.2.2
  have htile3 : ∀ px : List PyVal, px.length = 1 → (px ++ px ++ px).length = 3 := by
    intro px hpx
    simp [hpx]
  have hok := RunCheckpointEval_ok inp hsup hbs hds hnonan hassert
  rw [if_pos hchan, if_pos hchan] at hok
  have htileshape : hasShape (tileBatch (generatedFake inp)) (numTestOf inp) H W 3 := by
    rw [tileBatch_eq]
    exact hasShape_map _ _ _ _ _ _ 3 htile3 hsf
  have hre : realPopulation inp = scaleBatch 255 (inp.dataset.take (numTestOf inp)) := rfl
  refine ⟨_, hok, ?_, ?_, ?_⟩
  · show hasShape (scaleBatch 255 (tileBatch (generatedFake inp))) (numTestOf inp) H W 3
    rw [scaleBatch_eq]
    exact hasShape_map _ _ _ _ _ _ 3 (fun px hpx => by simpa using hpx) htileshape
  · show hasShape (tileBatch (realPopulation inp)) (numTestOf inp) H W 3
    rw [tileBatch_eq]
    exact hasShape_map _ _ _ _ _ _ 3 htile3 hsr
  · intro i j k hi hj hk
    constructor
    · obtain ⟨v, hv⟩ := length_one_exists _
        (hasShape_bounds _ _ _ _ _ hsf i j k hi hj hk).2.2.2
      refine ⟨v, hv, ?_⟩
      show pixelAt (scaleBatch 255 (tileBatch (generatedFake inp))) i j k = _
      rw [scaleBatch_eq, pixelAt_trans _ _ _ _ _ _ htileshape i j k hi hj hk,
        tileBatch_eq, pixelAt_trans _ _ _ _ _ _ hsf i j k hi hj hk, hv]
      rfl
    · obtain ⟨u, hu⟩ := length_one_exists _
        (hasShape_bounds _ _ _ _ _ hst i j k hi hj hk).2.2.2
      refine ⟨u, hu, ?_⟩
      show pixelAt (tileBatch (realPopulation inp)) i j k = _
      rw [tileBatch_eq, pixelAt_trans _ _ _ _ _ _ hsr i j k hi hj hk, hre,
        scaleBatch_eq, pixelAt_trans _ _ _ _ _ _ hst i j k hi hj hk, hu]
      rfl

/-- Witness for C6 at a concrete input (50 one-pixel one-channel images,
batch size 30). -/
theorem claim_C6_witness :
    (inpC4.ganTypeSupported = true ∧ inpC4.batchSize ≠ 0 ∧
      numTestOf inpC4 ≤ inpC4.dataset.length ∧
      (∀ k, (inpC4.gen k).length = inpC4.batchSize) ∧
      (∀ k, batchHasNan (inpC4.gen k) = false) ∧
      0 < numTestOf inpC4 ∧ (0 : ℕ) < 1 ∧ (0 : ℕ) < 1 ∧
      (∀ img ∈ inpC4.dataset, img.length = 1 ∧
        ∀ row ∈ img, row.length = 1 ∧ ∀ px ∈ row, px.length = 1) ∧
      (∀ k, ∀ img ∈ inpC4.gen k, img.length = 1 ∧
        ∀ row ∈ img, row.length = 1 ∧ ∀ px ∈ row, px.length = 1)) ∧
    (∃ out, RunCheckpointEval inpC4 = .ok out ∧
      hasShape out.fakeImages (numTestOf inpC4) 1 1 3 ∧
      hasShape out.realImages (numTestOf inpC4) 1 1 3 ∧
      (∀ i j k, i < numTestOf inpC4 → j < 1 → k < 1 →
        (∃ v, pixelAt (generatedFake inpC4) i j k = [v] ∧
          pixelAt out.fakeImages i j k
            = [PyVal.scale 255 v, PyVal.scale 255 v, PyVal.scale 255 v]) ∧
        (∃ u, pixelAt (inpC4.dataset.take (numTestOf inpC4)) i j k = [u] ∧
          pixelAt out.realImages i j k
            = [PyVal.scale 255 u, PyVal.scale 255 u, PyVal.scale 255 u]))) :=
  ⟨⟨rfl, by decide, by decide, fun k => rfl, fun k => rfl, by decide, by decide,
    by decide, by decide, fun k => by simp only [inpC4]; decide⟩,
   claim_C6_channel_broadcast inpC4 1 1 rfl (by decide) (by decide)
     (fun k => rfl) (fun k => rfl) (by decide) (by decide) (by decide)
     (by decide) (fun k => by simp only [inpC4]; decide)⟩

/-! ## The sweep `RunTaskEval` and its persisted score table

The eight metric tasks instantiated by `RunTaskEval` contribute only their
declared metric-name sets to the table layout, so they are embedded as those
sets (in registration order); the values they compute are part of the
checkpoint-evaluation oracle. -/

/-- Metric names of `InceptionScoreTask`. -/
def InceptionScoreTask.metrics : List String := ["inception_score"]

/-- Metric names of `FIDScoreTask`. -/
def FIDScoreTask.metrics : List String := ["fid_score"]

/-- Metric names of `MultiscaleSSIMTask`. -/
def MultiscaleSSIMTask.metrics : List String := ["ms_ssim"]

/-- Metric names of `ComputeAccuracyTask`. -/
def ComputeAccuracyTask.metrics : List String :=
  ["train_accuracy", "test_accuracy", "fake_accuracy", "train_d_loss",
   "test_d_loss"]

/-- Metric names of `FractalDimensionTask`. -/
def FractalDimensionTask.metrics : List String := ["fractal_dimension"]

/-- Metric names of `KIDScoreTask`. -/
def KIDScoreTask.metrics : List String := ["kid_score"]

/-- Metric names of `GeneratorConditionNumberTask`. -/
def GeneratorConditionNumberTask.metrics : List String :=
  ["log_condition_number_count", "log_condition_number_mean",
   "log_condition_number_std"]

/-- Metric names of `GILBOTask`. -/
def GILBOTask.metrics : List String :=
  ["gilbo", "gilbo_train_consistency", "gilbo_eval_consistency",
   "gilbo_self_consistency"]

/-- The `tasks_to_run` registration order of `RunTaskEval`: the metric-name
sets of the eight tasks. -/
def tasksToRun : List (List String) :=
  [InceptionScoreTask.metrics, FIDScoreTask.metrics, MultiscaleSSIMTask.metrics,
   ComputeAccuracyTask.metrics, FractalDimensionTask.metrics,
   KIDScoreTask.metrics, GeneratorConditionNumberTask.metrics,
   GILBOTask.metrics]

/-- `task_headers`: for each task in registration order,
`sorted(task.MetricsList())`, all concatenated. -/
def taskHeaders : List String := (tasksToRun.map sortStr).flatten

/-- The fixed leading columns of the score table. -/
def csvPrefix : List String :=
  ["checkpoint_path", "model", "dataset", "tf_seed", "sample_id"]

/-- Model of `GetAllTrainingParams`: the set of hyperparameter names is
collected from the `params` module, which is not part of the given source
file, so the collected set is a parameter here; the function returns it
sorted, as the source does (`return sorted(all_params)`). -/
def GetAllTrainingParams (allParams : List String) : List String :=
  sortStr allParams

/-- The expected header `csv_header` of the score table. -/
def csvHeader (allParams : List String) : List String :=
  csvPrefix ++ taskHeaders ++ GetAllTrainingParams allParams

/-- Python `options[key]`: raises `KeyError` when the key is absent. -/
def keyGet (options : String → Option String) (k : String) :
    Except EvalError String :=
  match options k with
  | some v => .ok v
  | none => .error (.other ("KeyError: " ++ k))

/-- One hyperparameter cell of a row: the trial's value when the option is
set, otherwise `str(DEFAULT_VALUES[param])`; a parameter present in neither
raises an uncaught `KeyError`. -/
def paramValue (options : String → Option String) (p : String) :
    Except EvalError String :=
  match options p with
  | some v => .ok v
  | none =>
    match DEFAULT_VALUES.lookup p with
    | some d => .ok d
    | none => .error (.other ("KeyError: " ++ p))

/-- One output row of the sweep: checkpoint path, `options["gan_type"]`,
`options["dataset"]`, `str(options.get("tf_seed", -1))`,
`str(options.get("sample_id", -1))`, then for every metric column in
`task_headers` order the cell `"%.3f" % result_dict.get(metric,
default_value)`, then the hyperparameter columns. -/
def outputRow (options : String → Option String) (trainParams : List String)
    (checkpointPath : String) (dict : List (String × ℚ)) (defaultValue : ℚ) :
    Except EvalError (List String) := do
  let ganType ← keyGet options "gan_type"
  let dataset ← keyGet options "dataset"
  let tfSeed := (options "tf_seed").getD "-1"
  let sampleId := (options "sample_id").getD "-1"
  let metricCells := taskHeaders.map fun m =>
    format3 ((List.lookup m dict).getD defaultValue)
  let paramCells ← trainParams.mapM (paramValue options)
  pure ([checkpointPath, ganType, dataset, tfSeed, sampleId]
    ++ metricCells ++ paramCells)

/-- The body of the sweep loop for one pending checkpoint: run the
checkpoint evaluation; `NanFoundError` is caught and produces a row with the
empty dictionary and `default_value = NAN_DETECTED` (so every metric column
carries the sentinel); any other error propagates uncaught. -/
def checkpointRow (options : String → Option String) (trainParams : List String)
    (inputsOf : String → EvalInputs) (cp : String) :
    Except EvalError (List String) :=
  match RunCheckpointEval (inputsOf cp) with
  | .error .nanFound => outputRow options trainParams cp [] NAN_DETECTED
  | .error e => .error e
  | .ok out => outputRow options trainParams cp out.resultDict (-1)

/-- Persisted score table: the header line and the data rows. -/
structure CsvFile where
  header : List String
  rows : List (List String)
deriving DecidableEq

/-- Result of one sweep: the final table, the checkpoints whose evaluation
was invoked (in order), and the uncaught error that aborted the sweep, if
any. -/
structure SweepResult where
  file : CsvFile
  evaluated : List String
  err : Option EvalError
deriving DecidableEq

/-- The loop over `all_model_checkpoint_paths`: a checkpoint whose path is in
`finished` is skipped; otherwise its row is computed, appended and flushed;
an uncaught error aborts the loop, keeping the rows appended so far. The
`finished` set is fixed for the whole loop (the source never extends it
while looping). -/
def sweepLoop (rowOf : String → Except EvalError (List String))
    (finished : List String) :
    List String → CsvFile → List String → SweepResult
  | [], file, evalLog => ⟨file, evalLog, none⟩
  | cp :: rest, file, evalLog =>
    if cp ∈ finished then sweepLoop rowOf finished rest file evalLog
    else
      match rowOf cp with
      | .ok row =>
        sweepLoop rowOf finished rest ⟨file.header, file.rows ++ [row]⟩
          (evalLog ++ [cp])
      | .error e => ⟨file, evalLog ++ [cp], some e⟩

/-- The resumability set of `RunTaskEval`: with a fresh file or after schema
drift it is empty; otherwise it is the `checkpoint_path` column of the
persisted rows (`csv.DictReader` reads each row keyed by the file's header).
Schema drift means: there is at least one row, and the sorted field-name
list of the file differs from the sorted expected header
(`sorted(csv_header) != sorted(list(row.keys()))` raises `ValueError`,
which is caught and empties the set). -/
def finishedOf (allParams : List String) (initialFile : Option CsvFile) :
    List String :=
  let header := csvHeader allParams
  let file0 := initialFile.getD ⟨header, []⟩
  if file0.rows ≠ [] ∧ sortStr file0.header ≠ sortStr header then []
  else file0.rows.map fun r => r.getD (file0.header.indexOf "checkpoint_path") ""

/-- The table the sweep loop starts from: a missing file is created with just
the expected header; on schema drift the file is rewritten with just the
expected header; otherwise the existing file is kept as is. -/
def startFile (allParams : List String) (initialFile : Option CsvFile) :
    CsvFile :=
  let header := csvHeader allParams
  let file0 := initialFile.getD ⟨header, []⟩
  if file0.rows ≠ [] ∧ sortStr file0.header ≠ sortStr header then ⟨header, []⟩
  else file0

/-- Model of `RunTaskEval`: build the expected header, create or
schema-check the persisted table, collect the finished checkpoint paths, and
append one row per pending checkpoint of `all_model_checkpoint_paths`. -/
def RunTaskEval (options : String → Option String) (allParams : List String)
    (initialFile : Option CsvFile) (checkpoints : List String)
    (inputsOf : String → EvalInputs) : SweepResult :=
  sweepLoop (checkpointRow options (GetAllTrainingParams allParams) inputsOf)
    (finishedOf allParams initialFile) checkpoints
    (startFile allParams initialFile) []

/-! ## Characterization of the sweep -/

theorem error_bind {ε α β : Type} (e : ε) (f : α → Except ε β) :
    (Except.error e >>= f : Except ε β) = .error e := rfl

/-- Value a successful `rowOf` returns (with junk `[]` on an error, which the
abort-free characterization below never hits). -/
def rowValOf (rowOf : String → Except EvalError (List String)) (cp : String) :
    List String :=
  match rowOf cp with
  | .ok row => row
  | .error _ => []

theorem rowValOf_eq (rowOf : String → Except EvalError (List String))
    (cp : String) (row : List String) (h : rowOf cp = .ok row) :
    rowValOf rowOf cp = row := by
  simp [rowValOf, h]

theorem sweepLoop_ok (rowOf : String → Except EvalError (List String))
    (finished : List String) :
    ∀ (cps : List String) (file : CsvFile) (evalLog : List String),
      (∀ cp ∈ cps, cp ∉ finished → ∃ row, rowOf cp = .ok row) →
      sweepLoop rowOf finished cps file evalLog =
        ⟨⟨file.header, file.rows
            ++ ((cps.filter fun c => decide (c ∉ finished)).map (rowValOf rowOf))⟩,
         evalLog ++ (cps.filter fun c => decide (c ∉ finished)), none⟩ := by
  intro cps
  induction cps with
  | nil => intro file evalLog _; simp [sweepLoop]
  | cons cp rest ih =>
    intro file evalLog h
    by_cases hin : cp ∈ finished
    · rw [sweepLoop]
      simp only [if_pos hin]
      rw [ih file evalLog (fun c hc hcf => h c (List.mem_cons_of_mem cp hc) hcf)]
      simp [hin]
    · obtain ⟨row, hrow⟩ := h cp (List.mem_cons_self cp rest) hin
      rw [sweepLoop]
      simp only [if_neg hin, hrow]
      rw [ih _ _ (fun c hc hcf => h c (List.mem_cons_of_mem cp hc) hcf)]
      simp [hin, rowValOf_eq rowOf cp row hrow]

theorem finishedOf_none (allParams : List String) :
    finishedOf allParams none = [] := by
  simp [finishedOf]

theorem startFile_none (allParams : List String) :
    startFile allParams none = ⟨csvHeader allParams, []⟩ := by
  simp [startFile]

theorem mapM_length {ε α β : Type} (f : α → Except ε β) :
    ∀ (l : List α) (res : List β), l.mapM f = .ok res → res.length = l.length := by
  intro l
  induction l with
  | nil =>
    intro res h
    simp only [List.mapM_nil, pure_eq_ok, Except.ok.injEq] at h
    rw [← h]
    rfl
  | cons a as ih =>
    intro res h
    rw [List.mapM_cons] at h
    rcases hf : f a with e | b
    · rw [hf] at h
      simp [error_bind] at h
    · rw [hf] at h
      simp only [ok_bind] at h
      rcases hm : as.mapM f with e2 | bs
      · rw [hm] at h
        simp [error_bind] at h
      · rw [hm] at h
        simp only [ok_bind, pure_eq_ok, Except.ok.injEq] at h
        rw [← h]
        simp [ih bs hm]

/-- Structure of every row `outputRow` produces: the five fixed leading
cells, one `"%.3f"`-formatted cell per metric column in `task_headers`
order, then one cell per hyperparameter column. -/
theorem outputRow_shape (options : String → Option String) (tp : List String)
    (cp : String) (dict : List (String × ℚ)) (dv : ℚ) (row : List String)
    (h : outputRow options tp cp dict dv = .ok row) :
    ∃ g d pcells, pcells.length = tp.length ∧
      row = [cp, g, d, (options "tf_seed").getD "-1",
          (options "sample_id").getD "-1"]
        ++ (taskHeaders.map fun m => format3 ((List.lookup m dict).getD dv))
        ++ pcells := by
  rw [outputRow] at h
  rcases hg : keyGet options "gan_type" with e | g
  · rw [hg] at h
    simp [error_bind] at h
  rw [hg] at h
  simp only [ok_bind] at h
  rcases hd : keyGet options "dataset" with e | d
  · rw [hd] at h
    simp [error_bind] at h
  rw [hd] at h
  simp only [ok_bind] at h
  rcases hp : tp.mapM (paramValue options) with e | pcells
  · rw [hp] at h
    simp [error_bind] at h
  rw [hp] at h
  simp only [ok_bind, pure_eq_ok, Except.ok.injEq] at h
  exact ⟨g, d, pcells, mapM_length _ tp pcells hp, h.symm⟩

/-- The first cell of every produced row is the checkpoint path. -/
theorem outputRow_head (options : String → Option String) (tp : List String)
    (cp : String) (dict : List (String × ℚ)) (dv : ℚ) (row : List String)
    (h : outputRow options tp cp dict dv = .ok row) : row.getD 0 "" = cp := by
  obtain ⟨g, d, pcells, _, rfl⟩ := outputRow_shape options tp cp dict dv row h
  rfl

theorem checkpointRow_head (options : String → Option String) (tp : List String)
    (inputsOf : String → EvalInputs) (cp : String) (row : List String)
    (h : checkpointRow options tp inputsOf cp = .ok row) : row.getD 0 "" = cp := by
  rw [checkpointRow] at h
  rcases he : RunCheckpointEval (inputsOf cp) with e | res
  · rw [he] at h
    cases e with
    | nanFound => exact outputRow_head _ _ _ _ _ _ h
    | other msg => simp at h
  · rw [he] at h
    exact outputRow_head _ _ _ _ _ _ h

theorem csvHeader_indexOf_checkpoint_path (allParams : List String) :
    (csvHeader allParams).indexOf "checkpoint_path" = 0 := by
  have hcons : csvHeader allParams = "checkpoint_path"
      :: ((["model", "dataset", "tf_seed", "sample_id"] ++ taskHeaders)
        ++ GetAllTrainingParams allParams) := rfl
  rw [hcons]
  exact List.indexOf_cons_self _ _

theorem filter_not_mem_nil (cps : List String) :
    (cps.filter fun c => decide (c ∉ ([] : List String))) = cps :=
  List.filter_eq_self.mpr (fun a _ => by simp)

/-- Closed form of a sweep starting from a missing score file: every
checkpoint is evaluated and contributes one row, in order. -/
theorem RunTaskEval_fresh (options : String → Option String)
    (allParams : List String) (checkpoints : List String)
    (inputsOf : String → EvalInputs)
    (hok : ∀ cp ∈ checkpoints, ∃ row,
      checkpointRow options (GetAllTrainingParams allParams) inputsOf cp
        = .ok row) :
    RunTaskEval options allParams none checkpoints inputsOf =
      ⟨⟨csvHeader allParams,
        checkpoints.map (rowValOf
          (checkpointRow options (GetAllTrainingParams allParams) inputsOf))⟩,
       checkpoints, none⟩ := by
  rw [RunTaskEval, finishedOf_none, startFile_none,
    sweepLoop_ok _ [] checkpoints _ [] (fun cp hc _ => hok cp hc)]
  simp [filter_not_mem_nil]

/-- C2: a checkpoint whose `checkpoint_path` is already a row of the
persisted table is skipped without re-evaluation; hence a second sweep over
an unchanged checkpoint set with an unchanged schema performs zero
evaluations and leaves the table identical. -/
theorem claim_C2_sweep_idempotent (options : String → Option String)
    (allParams : List String) (checkpoints : List String)
    (inputsOf : String → EvalInputs)
    (hok : ∀ cp ∈ checkpoints, ∃ row,
      checkpointRow options (GetAllTrainingParams allParams) inputsOf cp
        = .ok row) :
    (RunTaskEval options allParams
      (some (RunTaskEval options allParams none checkpoints inputsOf).file)
      checkpoints inputsOf).evaluated = [] ∧
    (RunTaskEval options allParams
      (some (RunTaskEval options allParams none checkpoints inputsOf).file)
      checkpoints inputsOf).file
      = (RunTaskEval options allParams none checkpoints inputsOf).file := by
  have hrun1 := RunTaskEval_fresh options allParams checkpoints inputsOf hok
  set rowOf := checkpointRow options (GetAllTrainingParams allParams) inputsOf
    with hrowOf
  set rows1 := checkpoints.map (rowValOf rowOf) with hrows1
  have hfile1 : (RunTaskEval options allParams none checkpoints inputsOf).file
      = ⟨csvHeader allParams, rows1⟩ := by rw [hrun1]
  have hnodrift : ¬ (rows1 ≠ [] ∧
      sortStr (csvHeader allParams) ≠ sortStr (csvHeader allParams)) := by
    intro hcontra
    exact hcontra.2 rfl
  have hfinished : finishedOf allParams (some ⟨csvHeader allParams, rows1⟩)
      = checkpoints := by
    rw [finishedOf]
    simp only [Option.getD_some, if_neg hnodrift,
      csvHeader_indexOf_checkpoint_path]
    rw [hrows1, List.map_map]
    have : ∀ cp ∈ checkpoints,
        ((fun r => r.getD 0 "") ∘ rowValOf rowOf) cp = id cp := by
      intro cp hc
      obtain ⟨row, hrow⟩ := hok cp hc
      simp only [Function.comp_apply, rowValOf_eq rowOf cp row hrow, id]
      exact checkpointRow_head options _ inputsOf cp row hrow
    rw [List.map_congr_left this, List.map_id]
  have hstart : startFile allParams (some ⟨csvHeader allParams, rows1⟩)
      = ⟨csvHeader allParams, rows1⟩ := by
    rw [startFile]
    simp only [Option.getD_some, if_neg hnodrift]
  have hfilter : (checkpoints.filter fun c => decide (c ∉ checkpoints)) = [] :=
    List.filter_eq_nil_iff.mpr (fun a ha => by simp [ha])
  rw [hfile1, RunTaskEval, hfinished, hstart,
    sweepLoop_ok rowOf checkpoints checkpoints _ []
      (fun cp hc _ => hok cp hc), hfilter]
  simp

/-- Witness for C2: one checkpoint evaluated with a NaN result (so its row is
the sentinel row), then re-run. -/
theorem claim_C2_witness :
    (∀ cp ∈ ["ckpt-1"], ∃ row,
      checkpointRow (fun k => if k = "gan_type" then some "GAN"
          else if k = "dataset" then some "mnist" else none)
        (GetAllTrainingParams []) (fun _ => inpC4) cp = .ok row) ∧
    ((RunTaskEval (fun k => if k = "gan_type" then some "GAN"
          else if k = "dataset" then some "mnist" else none) []
        (some (RunTaskEval (fun k => if k = "gan_type" then some "GAN"
            else if k = "dataset" then some "mnist" else none) [] none
          ["ckpt-1"] (fun _ => inpC4)).file)
        ["ckpt-1"] (fun _ => inpC4)).evaluated = [] ∧
      (RunTaskEval (fun k => if k = "gan_type" then some "GAN"
          else if k = "dataset" then some "mnist" else none) []
        (some (RunTaskEval (fun k => if k = "gan_type" then some "GAN"
            else if k = "dataset" then some "mnist" else none) [] none
          ["ckpt-1"] (fun _ => inpC4)).file)
        ["ckpt-1"] (fun _ => inpC4)).file
        = (RunTaskEval (fun k => if k = "gan_type" then some "GAN"
            else if k = "dataset" then some "mnist" else none) [] none
          ["ckpt-1"] (fun _ => inpC4)).file) :=
  ⟨fun cp hc => by
      have hcp := List.mem_singleton.mp hc
      subst hcp
      exact ⟨rowValOf (checkpointRow (fun k => if k = "gan_type"
        then some "GAN" else if k = "dataset" then some "mnist" else none)
        (GetAllTrainingParams []) (fun _ => inpC4)) "ckpt-1", rfl⟩,
   claim_C2_sweep_idempotent _ [] ["ckpt-1"] (fun _ => inpC4)
    (fun cp hc => by
      have hcp := List.mem_singleton.mp hc
      subst hcp
      exact ⟨rowValOf (checkpointRow (fun k => if k = "gan_type"
        then some "GAN" else if k = "dataset" then some "mnist" else none)
        (GetAllTrainingParams []) (fun _ => inpC4)) "ckpt-1", rfl⟩)⟩

/-- C5: on schema drift (a nonempty persisted table whose column multiset no
longer matches the expected header) the sweep does not fail: it behaves
exactly like a sweep over a missing file — the table is rewritten with just
the new header, every checkpoint is treated as pending, and (when no
checkpoint aborts) every checkpoint is evaluated, none skipped. -/
theorem claim_C5_schema_drift_recompute (options : String → Option String)
    (allParams : List String) (f : CsvFile) (checkpoints : List String)
    (inputsOf : String → EvalInputs)
    (hrows : f.rows ≠ [])
    (hdrift : sortStr f.header ≠ sortStr (csvHeader allParams)) :
    RunTaskEval options allParams (some f) checkpoints inputsOf
      = RunTaskEval options allParams none checkpoints inputsOf ∧
    ((∀ cp ∈ checkpoints, ∃ row,
        checkpointRow options (GetAllTrainingParams allParams) inputsOf cp
          = .ok row) →
      (RunTaskEval options allParams (some f) checkpoints inputsOf).evaluated
        = checkpoints ∧
      (RunTaskEval options allParams (some f) checkpoints inputsOf).file.header
        = csvHeader allParams ∧
      (RunTaskEval options allParams (some f) checkpoints inputsOf).err
        = none) := by
  have hfin : finishedOf allParams (some f) = [] := by
    rw [finishedOf]
    simp only [Option.getD_some, if_pos (And.intro hrows hdrift)]
  have hstart : startFile allParams (some f) = ⟨csvHeader allParams, []⟩ := by
    rw [startFile]
    simp only [Option.getD_some, if_pos (And.intro hrows hdrift)]
  have heq : RunTaskEval options allParams (some f) checkpoints inputsOf
      = RunTaskEval options allParams none checkpoints inputsOf := by
    rw [RunTaskEval, RunTaskEval, hfin, hstart, finishedOf_none, startFile_none]
  refine ⟨heq, fun hok => ?_⟩
  rw [heq, RunTaskEval_fresh options allParams checkpoints inputsOf hok]
  exact ⟨rfl, rfl, rfl⟩

/-- Witness for C5: persisted table with header `[a, b]` and one row, against
the real expected header. -/
theorem claim_C5_witness :
    ((⟨["a", "b"], [["x", "y"]]⟩ : CsvFile).rows ≠ [] ∧
      sortStr (⟨["a", "b"], [["x", "y"]]⟩ : CsvFile).header
        ≠ sortStr (csvHeader [])) ∧
    (RunTaskEval (fun _ => none) [] (some ⟨["a", "b"], [["x", "y"]]⟩) []
        (fun _ => inpC4)
      = RunTaskEval (fun _ => none) [] none [] (fun _ => inpC4) ∧
    ((∀ cp ∈ ([] : List String), ∃ row,
        checkpointRow (fun _ => none) (GetAllTrainingParams [])
          (fun _ => inpC4) cp = .ok row) →
      (RunTaskEval (fun _ => none) [] (some ⟨["a", "b"], [["x", "y"]]⟩) []
        (fun _ => inpC4)).evaluated = [] ∧
      (RunTaskEval (fun _ => none) [] (some ⟨["a", "b"], [["x", "y"]]⟩) []
        (fun _ => inpC4)).file.header = csvHeader [] ∧
      (RunTaskEval (fun _ => none) [] (some ⟨["a", "b"], [["x", "y"]]⟩) []
        (fun _ => inpC4)).err = none)) :=
  ⟨⟨by decide, by decide⟩,
   claim_C5_schema_drift_recompute (fun _ => none) [] ⟨["a", "b"], [["x", "y"]]⟩
     [] (fun _ => inpC4) (by decide) (by decide)⟩

/-! ## Claim C1: NaN handling at the sweep level -/

/-- Trial options used by concrete sweeps: a supported GAN type and a
dataset, nothing else. -/
def optionsC : String → Option String := fun k =>
  if k = "gan_type" then some "GAN"
  else if k = "dataset" then some "mnist" else none

/-- Checkpoint input whose generator emits NaN pixels. -/
def inpNan : EvalInputs :=
  ⟨true, 50, List.replicate 50 [[[PyVal.finite 2]]], 30,
   fun _ => List.replicate 30 [[[PyVal.nan]]], [], []⟩

/-- Checkpoint input whose generator emits infinite (non-finite but not NaN)
pixels; the tasks would then compute some value for `inception_score`. -/
def inpInf : EvalInputs :=
  ⟨true, 50, List.replicate 50 [[[PyVal.finite 2]]], 30,
   fun _ => List.replicate 30 [[[PyVal.inf]]], [],
   [("inception_score", 7)]⟩

/-- C1 as stated is false: the corrupted-generation check is `np.isnan`, so a
generated batch consisting of infinities — non-finite values that are not
NaN — raises nothing; the sweep completes normally and the checkpoint's row
carries the computed metric values, not the sentinel. -/
theorem claim_C1_counterexample :
    (∃ img ∈ inpInf.gen 0, ∃ row ∈ img, ∃ px ∈ row, ∃ v ∈ px,
      PyVal.isFinite v = false ∧ PyVal.isnan v = false) ∧
    (RunTaskEval optionsC [] none ["ckpt-inf"] (fun _ => inpInf)).err = none ∧
    ((RunTaskEval optionsC [] none ["ckpt-inf"]
        (fun _ => inpInf)).file.rows.getD 0 []).getD 5 "" = "7.000" ∧
    (csvHeader []).getD 5 "" = "inception_score" ∧
    ("7.000" : String) ≠ "31337.000" := by
  refine ⟨?_, rfl, rfl, rfl, by decide⟩
  exact ⟨[[[PyVal.inf]]], by decide, [[PyVal.inf]], by decide, [PyVal.inf],
    by decide, PyVal.inf, by decide, rfl, rfl⟩

theorem format3_NAN_DETECTED : format3 NAN_DETECTED = "31337.000" := by decide

theorem getD_cons_add_five (a1 a2 a3 a4 a5 : String) (l : List String) (m : ℕ) :
    (a1 :: a2 :: a3 :: a4 :: a5 :: l).getD (5 + m) "" = l.getD m "" := by
  have h : 5 + m = m + 1 + 1 + 1 + 1 + 1 := by omega
  rw [h, List.getD_cons_succ, List.getD_cons_succ, List.getD_cons_succ,
    List.getD_cons_succ, List.getD_cons_succ]

/-- The metric cell at offset `5 + m` of a produced row. -/
theorem row_metric_cell (cp g d ts si : String) (cells pcells : List String)
    (m : ℕ) (hm : m < cells.length) :
    ([cp, g, d, ts, si] ++ cells ++ pcells).getD (5 + m) "" = cells.getD m "" := by
  have hshape : ([cp, g, d, ts, si] ++ cells ++ pcells)
      = cp :: g :: d :: ts :: si :: (cells ++ pcells) := by simp
  rw [hshape, getD_cons_add_five]
  rw [List.getD_eq_getElem?_getD, List.getD_eq_getElem?_getD,
    List.getElem?_append]
  simp [hm]

/-- C1 (amended): if a checkpoint's generation produces a batch containing a
NaN value — the raise is on NaN specifically (`np.isnan`), not on every
non-finite value — and no pending checkpoint raises an uncaught error, then
the sweep does not abort: it writes a row for that checkpoint in which every
metric column holds the formatted sentinel `NAN_DETECTED = 31337.0`, and
every remaining pending checkpoint is still evaluated. -/
theorem claim_C1_nan_sentinel_row (options : String → Option String)
    (allParams : List String) (initialFile : Option CsvFile)
    (pre post : List String) (cp : String) (inputsOf : String → EvalInputs)
    (hnan : RunCheckpointEval (inputsOf cp) = .error .nanFound)
    (hpending : cp ∉ finishedOf allParams initialFile)
    (hok : ∀ d ∈ pre ++ cp :: post, d ∉ finishedOf allParams initialFile →
      ∃ row, checkpointRow options (GetAllTrainingParams allParams) inputsOf d
        = .ok row) :
    (RunTaskEval options allParams initialFile (pre ++ cp :: post)
      inputsOf).err = none ∧
    cp ∈ (RunTaskEval options allParams initialFile (pre ++ cp :: post)
      inputsOf).evaluated ∧
    (∀ d ∈ post, d ∉ finishedOf allParams initialFile →
      d ∈ (RunTaskEval options allParams initialFile (pre ++ cp :: post)
        inputsOf).evaluated) ∧
    (∃ row ∈ (RunTaskEval options allParams initialFile (pre ++ cp :: post)
        inputsOf).file.rows,
      row.getD 0 "" = cp ∧
      ∀ m, m < taskHeaders.length → row.getD (5 + m) "" = "31337.000") := by
  set rowOf := checkpointRow options (GetAllTrainingParams allParams) inputsOf
    with hrowOf
  have hchar := sweepLoop_ok rowOf (finishedOf allParams initialFile)
    (pre ++ cp :: post) (startFile allParams initialFile) [] hok
  rw [RunTaskEval, ← hrowOf, hchar]
  have hcpmem : cp ∈ pre ++ cp :: post :=
    List.mem_append_right pre (List.mem_cons_self cp post)
  have hcpfil : cp ∈ (pre ++ cp :: post).filter
      fun c => decide (c ∉ finishedOf allParams initialFile) :=
    List.mem_filter.mpr ⟨hcpmem, by simp [hpending]⟩
  refine ⟨rfl, by simpa using hcpfil, ?_, ?_⟩
  · intro d hd hdp
    have hdmem : d ∈ pre ++ cp :: post :=
      List.mem_append_right pre (List.mem_cons_of_mem cp hd)
    have hdfil : d ∈ (pre ++ cp :: post).filter
        fun c => decide (c ∉ finishedOf allParams initialFile) :=
      List.mem_filter.mpr ⟨hdmem, by simp [hdp]⟩
    simpa using hdfil
  · obtain ⟨row, hrow⟩ := hok cp hcpmem hpending
    have hout : outputRow options (GetAllTrainingParams allParams) cp []
        NAN_DETECTED = .ok row := by
      rw [← hrow, hrowOf, checkpointRow, hnan]
    obtain ⟨g, d0, pcells, _, hshape⟩ :=
      outputRow_shape options _ cp [] NAN_DETECTED row hout
    refine ⟨row, ?_, ?_, ?_⟩
    · refine List.mem_append_right _ ?_
      refine List.mem_map.mpr ⟨cp, hcpfil, ?_⟩
      exact rowValOf_eq rowOf cp row hrow
    · rw [hshape]
      rfl
    · intro m hm
      rw [hshape, row_metric_cell cp g d0 _ _ _ _ m (by simpa using hm),
        getD_map_lt _ taskHeaders m hm "" ""]
      simp only [List.lookup_nil, Option.getD_none]
      exact format3_NAN_DETECTED

/-- Inputs for the C1 witness: the checkpoint named `ckpt-nan` generates NaN
pixels, every other checkpoint generates finite pixels. -/
def inputsOfC1 : String → EvalInputs := fun cp =>
  if cp = "ckpt-nan" then inpNan else inpC4

/-- Witness for the amended C1: a NaN checkpoint followed by a healthy one. -/
theorem claim_C1_witness :
    (RunCheckpointEval (inputsOfC1 "ckpt-nan") = .error .nanFound ∧
      "ckpt-nan" ∉ finishedOf [] none) ∧
    ((RunTaskEval optionsC [] none ([] ++ "ckpt-nan" :: ["ckpt-2"])
        inputsOfC1).err = none ∧
    "ckpt-nan" ∈ (RunTaskEval optionsC [] none ([] ++ "ckpt-nan" :: ["ckpt-2"])
        inputsOfC1).evaluated ∧
    (∀ d ∈ ["ckpt-2"], d ∉ finishedOf [] none →
      d ∈ (RunTaskEval optionsC [] none ([] ++ "ckpt-nan" :: ["ckpt-2"])
        inputsOfC1).evaluated) ∧
    (∃ row ∈ (RunTaskEval optionsC [] none ([] ++ "ckpt-nan" :: ["ckpt-2"])
        inputsOfC1).file.rows,
      row.getD 0 "" = "ckpt-nan" ∧
      ∀ m, m < taskHeaders.length → row.getD (5 + m) "" = "31337.000")) :=
  ⟨⟨rfl, by decide⟩,
   claim_C1_nan_sentinel_row optionsC [] none [] ["ckpt-2"] "ckpt-nan"
     inputsOfC1 rfl (by decide)
     (fun d hd _ => by
       rcases List.mem_cons.mp hd with rfl | hd2
       · exact ⟨rowValOf (checkpointRow optionsC (GetAllTrainingParams [])
           inputsOfC1) "ckpt-nan", rfl⟩
       · have hd3 := List.mem_singleton.mp hd2
         subst hd3
         exact ⟨rowValOf (checkpointRow optionsC (GetAllTrainingParams [])
           inputsOfC1) "ckpt-2", rfl⟩)⟩

/-! ## Claim C3: layout of the persisted score table -/

/-- C3 as stated is false: the metric columns are not globally sorted. The
source sorts each task's metric set separately and concatenates the results
in task registration order, so `inception_score` (from the first task)
precedes `fid_score`, while the globally sorted order would start with
`fake_accuracy`. -/
theorem claim_C3_counterexample :
    (RunTaskEval optionsC [] none [] (fun _ => inpC4)).file.header
      ≠ csvPrefix ++ sortStr tasksToRun.flatten ++ GetAllTrainingParams [] ∧
    taskHeaders ≠ sortStr taskHeaders ∧
    taskHeaders.getD 0 "" = "inception_score" ∧
    (sortStr taskHeaders).getD 0 "" = "fake_accuracy" := by
  refine ⟨?_, ?_, ?_, ?_⟩ <;> decide

/-- C3 (amended): the header is the fixed prefix
`[checkpoint_path, model, dataset, tf_seed, sample_id]`, followed by the
metric names sorted within each task and concatenated in task registration
order, followed by the hyperparameter names in globally sorted order; each
data row lists the five prefix cells, then one metric cell per `task_headers`
entry in that same order, formatted by `"%.3f"`, then the hyperparameter
cells, so every row has exactly as many cells as the header. -/
theorem claim_C3_table_layout (options : String → Option String)
    (allParams : List String) (checkpoints : List String)
    (inputsOf : String → EvalInputs)
    (hok : ∀ cp ∈ checkpoints, ∃ row,
      checkpointRow options (GetAllTrainingParams allParams) inputsOf cp
        = .ok row) :
    (RunTaskEval options allParams none checkpoints inputsOf).file.header
      = csvPrefix ++ (tasksToRun.map sortStr).flatten ++ sortStr allParams ∧
    List.Sorted StrLe (sortStr allParams) ∧
    List.Perm (sortStr allParams) allParams ∧
    (∀ t ∈ tasksToRun, List.Sorted StrLe (sortStr t) ∧
      List.Perm (sortStr t) t) ∧
    (∀ row ∈ (RunTaskEval options allParams none checkpoints
        inputsOf).file.rows,
      ∃ cpath g d ts si dict dv pcells,
        row = [cpath, g, d, ts, si]
          ++ (taskHeaders.map fun m => format3 ((List.lookup m dict).getD dv))
          ++ pcells ∧
        pcells.length = allParams.length ∧
        row.length = (RunTaskEval options allParams none checkpoints
          inputsOf).file.header.length) := by
  have hfresh := RunTaskEval_fresh options allParams checkpoints inputsOf hok
  refine ⟨by rw [hfresh]; rfl,
    List.sorted_insertionSort StrLe allParams,
    List.perm_insertionSort StrLe allParams,
    fun t _ => ⟨List.sorted_insertionSort StrLe t,
      List.perm_insertionSort StrLe t⟩, ?_⟩
  intro row hrow
  rw [hfresh] at hrow
  obtain ⟨cp, hcp, hval⟩ := List.mem_map.mp hrow
  obtain ⟨row0, hrow0⟩ := hok cp hcp
  rw [rowValOf_eq _ cp row0 hrow0] at hval
  subst hval
  have hout : ∃ dict dv, outputRow options (GetAllTrainingParams allParams) cp
      dict dv = .ok row0 := by
    rw [checkpointRow] at hrow0
    rcases he : RunCheckpointEval (inputsOf cp) with e | res
    · rw [he] at hrow0
      cases e with
      | nanFound => exact ⟨[], NAN_DETECTED, hrow0⟩
      | other msg => simp at hrow0
    · rw [he] at hrow0
      exact ⟨res.resultDict, -1, hrow0⟩
  obtain ⟨dict, dv, hout⟩ := hout
  obtain ⟨g, d, pcells, hplen, hshape⟩ :=
    outputRow_shape options _ cp dict dv row0 hout
  have hsortlen : (sortStr allParams).length = allParams.length :=
    (List.perm_insertionSort StrLe allParams).length_eq
  refine ⟨cp, g, d, _, _, dict, dv, pcells, hshape, ?_, ?_⟩
  · rw [hplen]
    exact hsortlen
  · rw [hfresh, hshape]
    simp [csvHeader, GetAllTrainingParams, csvPrefix, hplen, hsortlen]

/-- Witness for the amended C3 at a concrete input: two unsorted
hyperparameter names and one checkpoint. -/
theorem claim_C3_witness :
    (∀ cp ∈ ["ckpt-1"], ∃ row,
      checkpointRow optionsC (GetAllTrainingParams ["y_dim", "beta1"])
        (fun _ => inpC4) cp = .ok row) ∧
    ((RunTaskEval optionsC ["y_dim", "beta1"] none ["ckpt-1"]
        (fun _ => inpC4)).file.header
      = csvPrefix ++ (tasksToRun.map sortStr).flatten
        ++ sortStr ["y_dim", "beta1"] ∧
    List.Sorted StrLe (sortStr ["y_dim", "beta1"]) ∧
    List.Perm (sortStr ["y_dim", "beta1"]) ["y_dim", "beta1"] ∧
    (∀ t ∈ tasksToRun, List.Sorted StrLe (sortStr t) ∧
      List.Perm (sortStr t) t) ∧
    (∀ row ∈ (RunTaskEval optionsC ["y_dim", "beta1"] none ["ckpt-1"]
        (fun _ => inpC4)).file.rows,
      ∃ cpath g d ts si dict dv pcells,
        row = [cpath, g, d, ts, si]
          ++ (taskHeaders.map fun m => format3 ((List.lookup m dict).getD dv))
          ++ pcells ∧
        pcells.length = (["y_dim", "beta1"] : List String).length ∧
        row.length = (RunTaskEval optionsC ["y_dim", "beta1"] none ["ckpt-1"]
          (fun _ => inpC4)).file.header.length)) :=
  ⟨fun cp hc => by
      have hcp := List.mem_singleton.mp hc
      subst hcp
      exact ⟨rowValOf (checkpointRow optionsC
        (GetAllTrainingParams ["y_dim", "beta1"]) (fun _ => inpC4)) "ckpt-1",
        rfl⟩,
   claim_C3_table_layout optionsC ["y_dim", "beta1"] ["ckpt-1"]
     (fun _ => inpC4)
     (fun cp hc => by
       have hcp := List.mem_singleton.mp hc
       subst hcp
       exact ⟨rowValOf (checkpointRow optionsC
         (GetAllTrainingParams ["y_dim", "beta1"]) (fun _ => inpC4)) "ckpt-1",
         rfl⟩)⟩

end EvalGanLib
